import Mathlib

/-!
# The control loop of the scheduler library's driver (`src/main.c`)

`main.c` is the host program of the scheduler: it parses its options, brackets
the run with `initialize_scheduler` / `shutdown_scheduler`, and in every time
step acquires task descriptors ("metadata blocks"), starts the radar (FFT) and
Viterbi kernels on them, waits on the critical barrier and retrieves the
critical results.

The scheduler itself (`scheduler.h`, `scheduler.c`) and the kernels
(`kernels_api.h`) are not part of the source under study.  Their calls are
embedded as follows.

* Every call `main` makes into the scheduler is recorded as an `Event`, in
  program order; a run of `main` is the list of events it produces together
  with the way the process ends.
* The values those external calls return (whether an acquisition succeeds,
  which dictionary entry the Viterbi kernel hands out, whether a kernel
  initialises, how many time steps the input feed provides) are inputs of the
  model (`StepInput`, `World`): every behaviour of the absent code is covered
  by some choice of these inputs.
* Enumerators and array sizes that come from the absent headers are fields of
  `Decls`.
* The run times `main` reports are computed from `gettimeofday` timestamps in
  `uint64_t` accumulators; they are embedded separately (`PhaseTimer`), with
  the timestamps of the successive time steps as input.
-/

namespace SchedulerLibrary

/-! ## Declarations taken from the absent headers -/

/-- Enumerators, sizes and initial values that `main.c` uses but that are
declared in `scheduler.h` / `kernels_api.h`; they are parameters of the model. -/
structure Decls where
  /-- The enumerator `BASE_TASK` of the criticality levels. -/
  BASE_TASK : Nat
  /-- The enumerator `CRITICAL_TASK` of the criticality levels. -/
  CRITICAL_TASK : Nat
  /-- The enumerator `NUM_SELECTION_POLICIES`: the number of selection policies,
  and the length of the table `scheduler_selection_policy_str`. -/
  NUM_SELECTION_POLICIES : Nat
  /-- The constant `NUM_MESSAGES` of the Viterbi dictionary. -/
  NUM_MESSAGES : Nat
  /-- The constant `RADAR_N`: the radar input buffer has `2*RADAR_N` samples. -/
  RADAR_N : Nat
  /-- The value `global_scheduler_selection_policy` has when `main` starts. -/
  global_scheduler_selection_policy : Nat
  /-- Whether the program is built with `USE_SIM_ENVIRON`. -/
  USE_SIM_ENVIRON : Bool

/-- The job kinds `main` requests descriptors for. -/
inductive scheduler_jobs_t where
  | FFT_TASK
  | VITERBI_TASK
  deriving DecidableEq, Repr

/-- A function pointer that can be stored in the `atFinish` field of a
descriptor: the finalizer defined in `main.c`, or any other address. -/
inductive fn_ptr where
  | base_release_metadata_block
  | other (addr : Nat)
  deriving DecidableEq, Repr

/-- The fields of a task descriptor `main` reads or writes: its block
identifier and its completion action `atFinish` (`none` is `NULL`). -/
structure task_metadata_block_t where
  block_id : Nat
  atFinish : Option fn_ptr
  deriving DecidableEq, Repr

/-- A pointer to a Viterbi dictionary entry (`addr`) together with the fields
`main` reads through it. -/
structure vit_dict_entry_t where
  addr : Nat
  msg_num : Nat
  msg_id : Nat
  deriving DecidableEq, Repr

/-- The reports `main` prints on its error paths (progress output is not
recorded). -/
inductive Msg where
  /-- The text of `print_usage`. -/
  | usage
  /-- Report "Cannot specify FFT logn samples value %u (Legal values are 10, 14)". -/
  | illegal_fft_logn
  /-- Report "Error: the trace reader couldn't be initialized properly.". -/
  | trace_reader_error
  /-- Report "Error: the computer vision kernel couldn't be initialized properly.". -/
  | cv_kernel_error
  /-- Report "Error: the radar kernel couldn't be initialized properly.". -/
  | rad_kernel_error
  /-- Report "Error: the Viterbi decoding kernel couldn't be initialized properly.". -/
  | vit_kernel_error
  /-- Report "ERROR : Selected Scheduler Policy (%u) is larger than number of policies (%u)". -/
  | policy_too_large
  /-- Report "Out of metadata blocks for FFT -- PANIC Quit the run (for now)". -/
  | out_of_blocks_fft
  /-- Report "Out of metadata blocks for Non-Critical FFT -- PANIC Quit the run (for now)". -/
  | out_of_blocks_noncrit_fft
  /-- Report "Out of metadata blocks for VITERBI -- PANIC Quit the run (for now)". -/
  | out_of_blocks_vit
  /-- Report "Out of metadata blocks for Non-Critical VIT -- PANIC Quit the run (for now)". -/
  | out_of_blocks_noncrit_vit
  /-- Report "WARNING: MSG_NUM %u : LNUM %u M_ID %u MSG_ID %u". -/
  | msg_num_warning
  deriving DecidableEq, Repr

/-- What `main` does that is visible to the scheduler and to the user, in
program order.  `wait_all_tasks_finish` and `free_task_metadata_block` are
scheduler operations too; `main` mentions the first only in comments. -/
inductive Event where
  | printf (m : Msg)
  | initialize_scheduler
  /-- The read `scheduler_selection_policy_str[i]`. -/
  | policy_str_index (i : Nat)
  /-- The call `get_task_metadata_block(job, crit)` and what it returned. -/
  | get_task_metadata_block (job : scheduler_jobs_t) (crit : Nat)
      (result : Option task_metadata_block_t)
  /-- The assignment `mb->atFinish = v` on block `block_id`. -/
  | store_atFinish (block_id : Nat) (v : Option fn_ptr)
  /-- The call `start_execution_of_rad_kernel(mb, inputs)`; `mb` is the
  descriptor as it is at the call. -/
  | start_execution_of_rad_kernel (mb : task_metadata_block_t) (inputs : List Nat)
  | start_execution_of_vit_kernel (mb : task_metadata_block_t) (entry : vit_dict_entry_t)
  | wait_all_critical
  | finish_execution_of_rad_kernel (mb : task_metadata_block_t)
  | finish_execution_of_vit_kernel (mb : task_metadata_block_t)
  | free_task_metadata_block (mb : task_metadata_block_t)
  | wait_all_tasks_finish
  | shutdown_scheduler
  deriving DecidableEq, Repr

/-- How the process ends: `exit(code)`, or `return code` from `main`. -/
inductive Termination where
  | exit (code : Int)
  | returned (code : Int)
  deriving DecidableEq, Repr

/-! ## `base_release_metadata_block` -/

/-- The finalizer `base_release_metadata_block(mb)`: apart from a debug print
it is the single call `free_task_metadata_block(mb)`. -/
def base_release_metadata_block (mb : task_metadata_block_t) : List Event :=
  [Event.free_task_metadata_block mb]

/-! ## Option parsing -/

/-- One result of `getopt`, with `optarg` already through `atoi` for the
options whose value `main` keeps in a variable this model follows. -/
inductive Opt where
  | h
  | A
  | o
  | R
  | C
  | V
  | s
  | f (n : Int)
  | r
  | t
  | v
  | S (n : Int)
  | W
  | F (n : Int)
  | M (n : Int)
  | P (n : Int)
  /-- The result ':' (an option without its value). -/
  | colon
  /-- The result '?' (an unknown option). -/
  | question
  deriving DecidableEq, Repr

/-- Conversion of an `int` to `unsigned` (32 bits). -/
def to_unsigned (n : Int) : Nat := (n % 4294967296).toNat

/-- The variables set by the options, as `unsigned` values (`main` prints each
of them with `%u`). -/
structure Globals where
  additional_fft_tasks_per_time_step : Nat
  additional_vit_tasks_per_time_step : Nat
  task_size_variability : Nat
  global_scheduler_selection_policy : Nat
  fft_logn_samples : Option Nat
  deriving DecidableEq, Repr

/-- The variables as they are before the first option is read: both task
counts are initialised to 0 in `main`, `task_size_variability` is a global
without initialiser. -/
def initial_globals (d : Decls) : Globals :=
  { additional_fft_tasks_per_time_step := 0
    additional_vit_tasks_per_time_step := 0
    task_size_variability := 0
    global_scheduler_selection_policy := d.global_scheduler_selection_policy
    fft_logn_samples := none }

/-- Result of the option loop: the reports printed, the variables, and the
exit status when the loop ended the process. -/
structure OptionsRun where
  events : List Event
  globals : Globals
  exit_code : Option Int
  deriving DecidableEq, Repr

/-- The `while ((opt = getopt(...)) != -1) switch (opt)` loop of `main`. -/
def getopt_loop (g : Globals) : List Opt → OptionsRun
  | [] => { events := [], globals := g, exit_code := none }
  | Opt.h :: _ => { events := [Event.printf Msg.usage], globals := g, exit_code := some 0 }
  | Opt.f n :: rest =>
    let g1 := { g with fft_logn_samples := some (to_unsigned n) }
    if to_unsigned n = 10 ∨ to_unsigned n = 14 then getopt_loop g1 rest
    else { events := [Event.printf Msg.illegal_fft_logn], globals := g1, exit_code := some (-1) }
  | Opt.S n :: rest => getopt_loop { g with task_size_variability := to_unsigned n } rest
  | Opt.F n :: rest =>
    getopt_loop { g with additional_fft_tasks_per_time_step := to_unsigned n } rest
  | Opt.M n :: rest =>
    getopt_loop { g with additional_vit_tasks_per_time_step := to_unsigned n } rest
  | Opt.P n :: rest =>
    getopt_loop { g with global_scheduler_selection_policy := to_unsigned n } rest
  | _ :: rest => getopt_loop g rest

/-! ## One time step -/

/-- What the external calls of one time step return. -/
structure StepInput where
  /-- The samples `rdentry_p->return_data[ii]` of the radar entry returned by
  `iterate_rad_kernel` (each sample stands for its bit pattern). -/
  return_data : Nat → Nat
  /-- The entry returned by `iterate_vit_kernel`. -/
  vdentry_p : vit_dict_entry_t
  /-- Result of `get_task_metadata_block(FFT_TASK, CRITICAL_TASK)`. -/
  fft_mb_ptr : Option task_metadata_block_t
  /-- Result of `get_task_metadata_block(FFT_TASK, BASE_TASK)` in iteration `i`. -/
  fft_mb_ptr_2 : Nat → Option task_metadata_block_t
  /-- Result of `get_task_metadata_block(VITERBI_TASK, 3)`. -/
  vit_mb_ptr : Option task_metadata_block_t
  /-- Result of `get_task_metadata_block(VITERBI_TASK, BASE_TASK)` in iteration `i`. -/
  vit_mb_ptr_2 : Nat → Option task_metadata_block_t
  /-- Result of `select_random_vit_input()` in iteration `i`. -/
  select_random_vit_input : Nat → vit_dict_entry_t

/-- The events of (a part of) a time step, and the status when `exit` was
called in it. -/
structure StepRun where
  events : List Event
  exit_code : Option Int
  deriving DecidableEq, Repr

/-- Sequencing: `b` runs after `a` unless `a` called `exit`. -/
def StepRun.andThen (a b : StepRun) : StepRun :=
  match a.exit_code with
  | some c => { events := a.events, exit_code := some c }
  | none => { events := a.events ++ b.events, exit_code := b.exit_code }

/-- The copy loop `for (ii = 0; ii < 2*RADAR_N; ii++) radar_inputs[ii] = ref_in[ii]`. -/
def radar_inputs (d : Decls) (inp : StepInput) : List Nat :=
  (List.range (2 * d.RADAR_N)).map inp.return_data

/-- The loop `for (int i = 0; i < additional_fft_tasks_per_time_step; i++)`,
called with `remaining` equal to the bound and `i = 0`: `remaining` iterations
are still to run, the next one with counter `i`.  The `int` counter is compared
with the `unsigned` bound after conversion, so the body runs for
`i = 0, ..., bound - 1` (for a bound above `INT_MAX`, which a negative `-F`
value gives, the counter is taken to wrap around as on two's-complement
hardware). -/
def additional_fft_tasks (d : Decls) (inp : StepInput) : (remaining i : Nat) → StepRun
  | 0, _ => { events := [], exit_code := none }
  | remaining + 1, i =>
    match inp.fft_mb_ptr_2 i with
    | none =>
      { events := [Event.get_task_metadata_block .FFT_TASK d.BASE_TASK none,
                   Event.printf Msg.out_of_blocks_noncrit_fft]
        exit_code := some (-5) }
    | some mb =>
      let mb2 : task_metadata_block_t :=
        { mb with atFinish := some fn_ptr.base_release_metadata_block }
      StepRun.andThen
        { events := [Event.get_task_metadata_block .FFT_TASK d.BASE_TASK (some mb),
                     Event.store_atFinish mb.block_id (some fn_ptr.base_release_metadata_block),
                     Event.start_execution_of_rad_kernel mb2 (radar_inputs d inp)]
          exit_code := none }
        (additional_fft_tasks d inp remaining (i + 1))

/-- The entry a non-critical Viterbi task of iteration `i` is started with. -/
def vdentry2_p (d : Decls) (g : Globals) (select_specific_vit_input : Nat → Nat → vit_dict_entry_t)
    (inp : StepInput) (i : Nat) : vit_dict_entry_t :=
  if g.task_size_variability = 0 then
    select_specific_vit_input (inp.vdentry_p.msg_num / d.NUM_MESSAGES)
      (inp.vdentry_p.msg_num % d.NUM_MESSAGES)
  else inp.select_random_vit_input i

/-- The warning printed in the branch `task_size_variability == 0` when
`m_id != vdentry_p->msg_id`. -/
def msg_num_warning (d : Decls) (g : Globals) (inp : StepInput) : List Event :=
  if g.task_size_variability = 0 ∧ inp.vdentry_p.msg_num % d.NUM_MESSAGES ≠ inp.vdentry_p.msg_id
  then [Event.printf Msg.msg_num_warning] else []

/-- The loop `for (int i = 0; i < additional_vit_tasks_per_time_step; i++)`,
called with `remaining` equal to the bound and `i = 0`, as
`additional_fft_tasks`. -/
def additional_vit_tasks (d : Decls) (g : Globals)
    (select_specific_vit_input : Nat → Nat → vit_dict_entry_t) (inp : StepInput) :
    (remaining i : Nat) → StepRun
  | 0, _ => { events := [], exit_code := none }
  | remaining + 1, i =>
    match inp.vit_mb_ptr_2 i with
    | none =>
      { events := [Event.get_task_metadata_block .VITERBI_TASK d.BASE_TASK none,
                   Event.printf Msg.out_of_blocks_noncrit_vit]
        exit_code := some (-5) }
    | some mb =>
      let mb2 : task_metadata_block_t :=
        { mb with atFinish := some fn_ptr.base_release_metadata_block }
      StepRun.andThen
        { events := [Event.get_task_metadata_block .VITERBI_TASK d.BASE_TASK (some mb),
                     Event.store_atFinish mb.block_id (some fn_ptr.base_release_metadata_block)]
                    ++ msg_num_warning d g inp ++
                    [Event.start_execution_of_vit_kernel mb2
                      (vdentry2_p d g select_specific_vit_input inp i)]
          exit_code := none }
        (additional_vit_tasks d g select_specific_vit_input inp remaining (i + 1))

/-- The Viterbi half of a time step: from the critical Viterbi acquisition to
the two `finish_execution_of_*_kernel` calls; `fft_mb` is the critical FFT
descriptor started before. -/
def vit_part (d : Decls) (g : Globals) (select_specific_vit_input : Nat → Nat → vit_dict_entry_t)
    (inp : StepInput) (fft_mb : task_metadata_block_t) : StepRun :=
  match inp.vit_mb_ptr with
  | none =>
    { events := [Event.get_task_metadata_block .VITERBI_TASK 3 none,
                 Event.printf Msg.out_of_blocks_vit]
      exit_code := some (-4) }
  | some mb =>
    let vit_mb : task_metadata_block_t := { mb with atFinish := none }
    StepRun.andThen
      { events := [Event.get_task_metadata_block .VITERBI_TASK 3 (some mb),
                   Event.store_atFinish mb.block_id none,
                   Event.start_execution_of_vit_kernel vit_mb inp.vdentry_p]
        exit_code := none }
      (StepRun.andThen
        (additional_vit_tasks d g select_specific_vit_input inp
          g.additional_vit_tasks_per_time_step 0)
        { events := [Event.wait_all_critical,
                     Event.finish_execution_of_rad_kernel fft_mb,
                     Event.finish_execution_of_vit_kernel vit_mb]
          exit_code := none })

/-- The body of the main loop, from the critical FFT acquisition on. -/
def time_step (d : Decls) (g : Globals) (select_specific_vit_input : Nat → Nat → vit_dict_entry_t)
    (inp : StepInput) : StepRun :=
  match inp.fft_mb_ptr with
  | none =>
    { events := [Event.get_task_metadata_block .FFT_TASK d.CRITICAL_TASK none,
                 Event.printf Msg.out_of_blocks_fft]
      exit_code := some (-4) }
  | some mb =>
    let fft_mb : task_metadata_block_t := { mb with atFinish := none }
    StepRun.andThen
      { events := [Event.get_task_metadata_block .FFT_TASK d.CRITICAL_TASK (some mb),
                   Event.store_atFinish mb.block_id none,
                   Event.start_execution_of_rad_kernel fft_mb (radar_inputs d inp)]
        exit_code := none }
      (StepRun.andThen
        (additional_fft_tasks d inp g.additional_fft_tasks_per_time_step 0)
        (vit_part d g select_specific_vit_input inp fft_mb))

/-! ## The whole program -/

/-- What the external calls of a run return: the initialisations, the
dictionary lookup `select_specific_vit_input`, and one `StepInput` for every
time step the input feed provides before it reports its end. -/
structure World where
  init_trace_reader : Bool
  init_cv_kernel : Bool
  init_rad_kernel : Bool
  init_vit_kernel : Bool
  select_specific_vit_input : Nat → Nat → vit_dict_entry_t
  steps : List StepInput

/-- The main loop: one `time_step` per input record, stopped by the first
`exit`.  Returns the steps entered and the exit status, if any. -/
def main_loop (d : Decls) (g : Globals) (sel : Nat → Nat → vit_dict_entry_t) :
    List StepInput → List StepRun × Option Int
  | [] => ([], none)
  | inp :: rest =>
    let s := time_step d g sel inp
    match s.exit_code with
    | some c => ([s], some c)
    | none => (s :: (main_loop d g sel rest).1, (main_loop d g sel rest).2)

/-- A run of `main`: the events before the main loop, the time steps entered,
the events after the loop, and how the process ended. -/
structure Run where
  prologue : List Event
  steps : List StepRun
  epilogue : List Event
  result : Termination
  deriving DecidableEq, Repr

/-- All events of a run in program order. -/
def Run.trace (r : Run) : List Event :=
  r.prologue ++ (r.steps.map StepRun.events).flatten ++ r.epilogue

/-- The function `main`. -/
def main (d : Decls) (opts : List Opt) (w : World) : Run :=
  let p := getopt_loop (initial_globals d) opts
  match p.exit_code with
  | some c => { prologue := p.events, steps := [], epilogue := [], result := .exit c }
  | none =>
    let g := p.globals
    let pro := p.events ++ [Event.initialize_scheduler]
    if !d.USE_SIM_ENVIRON && !w.init_trace_reader then
      { prologue := pro ++ [Event.printf Msg.trace_reader_error], steps := [], epilogue := [],
        result := .returned 1 }
    else if !w.init_cv_kernel then
      { prologue := pro ++ [Event.printf Msg.cv_kernel_error], steps := [], epilogue := [],
        result := .returned 1 }
    else if !w.init_rad_kernel then
      { prologue := pro ++ [Event.printf Msg.rad_kernel_error], steps := [], epilogue := [],
        result := .returned 1 }
    else if !w.init_vit_kernel then
      { prologue := pro ++ [Event.printf Msg.vit_kernel_error], steps := [], epilogue := [],
        result := .returned 1 }
    else if g.global_scheduler_selection_policy > d.NUM_SELECTION_POLICIES then
      { prologue := pro ++ [Event.printf Msg.policy_too_large], steps := [], epilogue := [],
        result := .exit (-1) }
    else
      let pro2 := pro ++ [Event.policy_str_index g.global_scheduler_selection_policy]
      let l := main_loop d g w.select_specific_vit_input w.steps
      match l.2 with
      | some c => { prologue := pro2, steps := l.1, epilogue := [], result := .exit c }
      | none =>
        { prologue := pro2, steps := l.1, epilogue := [Event.shutdown_scheduler],
          result := .returned 0 }

/-- The variables with which the main loop runs. -/
def run_globals (d : Decls) (opts : List Opt) : Globals :=
  (getopt_loop (initial_globals d) opts).globals

/-! ## Concrete inputs used for evaluation -/

/-- Header values for evaluation: two selection policies, as `print_usage` lists
them, and distinct criticality levels with `CRITICAL_TASK = 3`. -/
def decls0 : Decls :=
  { BASE_TASK := 1, CRITICAL_TASK := 3, NUM_SELECTION_POLICIES := 2, NUM_MESSAGES := 4,
    RADAR_N := 2, global_scheduler_selection_policy := 0, USE_SIM_ENVIRON := false }

/-- Dictionary entry number `n` of a dictionary with four messages per length. -/
def entry0 (n : Nat) : vit_dict_entry_t := { addr := 1000 + n, msg_num := n, msg_id := n % 4 }

/-- A time step in which every acquisition succeeds: block 0 for the critical
FFT, block 1 for the critical Viterbi, blocks `10+i` and `20+i` for the
additional tasks; the random selection returns entry 7, the feed entry 5. -/
def step_ok : StepInput :=
  { return_data := fun ii => 100 + ii
    vdentry_p := entry0 5
    fft_mb_ptr := some { block_id := 0, atFinish := some (fn_ptr.other 77) }
    fft_mb_ptr_2 := fun i => some { block_id := 10 + i, atFinish := none }
    vit_mb_ptr := some { block_id := 1, atFinish := none }
    vit_mb_ptr_2 := fun i => some { block_id := 20 + i, atFinish := none }
    select_random_vit_input := fun _ => entry0 7 }

/-- A world in which every initialisation succeeds, with the given steps. -/
def world0 (steps : List StepInput) : World :=
  { init_trace_reader := true, init_cv_kernel := true, init_rad_kernel := true,
    init_vit_kernel := true
    select_specific_vit_input := fun l m => entry0 (l * 4 + m)
    steps := steps }

/-- The step `step_ok` with the pool exhausted at the critical FFT acquisition. -/
def step_no_fft : StepInput := { step_ok with fft_mb_ptr := none }

/-- The step `step_ok` with the pool exhausted at every non-critical FFT
acquisition. -/
def step_no_fft_2 : StepInput := { step_ok with fft_mb_ptr_2 := fun _ => none }

/-- The step `step_ok` with the pool exhausted at every non-critical Viterbi
acquisition. -/
def step_no_vit_2 : StepInput := { step_ok with vit_mb_ptr_2 := fun _ => none }

/-! ## Classification of events -/

/-- The events that occur in a time step before the barrier: acquisitions,
stores to `atFinish`, kernel starts and printed reports. -/
def Event.is_issue : Event → Bool
  | .printf _ => true
  | .get_task_metadata_block _ _ _ => true
  | .store_atFinish _ _ => true
  | .start_execution_of_rad_kernel _ _ => true
  | .start_execution_of_vit_kernel _ _ => true
  | _ => false

/-- The three events of a successful critical FFT acquisition. -/
def fft_crit_events (d : Decls) (inp : StepInput) (mb : task_metadata_block_t) : List Event :=
  [Event.get_task_metadata_block .FFT_TASK d.CRITICAL_TASK (some mb),
   Event.store_atFinish mb.block_id none,
   Event.start_execution_of_rad_kernel { mb with atFinish := none } (radar_inputs d inp)]

/-- The three events of a successful critical Viterbi acquisition. -/
def vit_crit_events (inp : StepInput) (mb : task_metadata_block_t) : List Event :=
  [Event.get_task_metadata_block .VITERBI_TASK 3 (some mb),
   Event.store_atFinish mb.block_id none,
   Event.start_execution_of_vit_kernel { mb with atFinish := none } inp.vdentry_p]

/-- The barrier and the two result retrievals that close a time step. -/
def closing_events (mbF mbV : task_metadata_block_t) : List Event :=
  [Event.wait_all_critical,
   Event.finish_execution_of_rad_kernel { mbF with atFinish := none },
   Event.finish_execution_of_vit_kernel { mbV with atFinish := none }]

/-- A time step that runs to its end: everything before the barrier is an
acquisition, a store, a start or a report, both critical descriptors are
started there, the barrier is called once, and the two result retrievals on
the critical descriptors follow it. -/
def StepRun.completes_through_barrier (s : StepRun) : Prop :=
  s.exit_code = none ∧ s.events.count Event.wait_all_critical = 1 ∧
  ∃ issued mbF mbV inputs entry,
    s.events = issued ++ [Event.wait_all_critical, Event.finish_execution_of_rad_kernel mbF,
      Event.finish_execution_of_vit_kernel mbV] ∧
    (∀ e ∈ issued, e.is_issue = true) ∧
    Event.start_execution_of_rad_kernel mbF inputs ∈ issued ∧
    Event.start_execution_of_vit_kernel mbV entry ∈ issued

/-- A time step cut short by `exit`: it consists of acquisitions, stores,
starts and reports only, so neither the barrier nor a result retrieval is
called in it. -/
def StepRun.aborted_before_barrier (s : StepRun) : Prop :=
  s.exit_code ≠ none ∧ s.events.count Event.wait_all_critical = 0 ∧
  ∀ e ∈ s.events, e.is_issue = true

/-- The descriptor passed by a `start_execution_of_*_kernel` call. -/
def Event.started : Event → Option task_metadata_block_t
  | .start_execution_of_rad_kernel mb _ => some mb
  | .start_execution_of_vit_kernel mb _ => some mb
  | _ => none

/-- `Q pre e` holds for every event `e` of `l`, where `pre` are the events of
`l` before it. -/
def EachAfter (Q : List Event → Event → Prop) (l : List Event) : Prop :=
  ∀ pre e post, l = pre ++ e :: post → Q pre e

/-- The descriptor `mb` is started right after its acquisition: the events
before the start end with the `get_task_metadata_block` call that returned
the block, the store of `v` into its `atFinish`, and at most printed reports;
`mb` is that block with `atFinish = v`; and `v` is `NULL` for an acquisition
at level `CRITICAL_TASK` or `3`, the finalizer for one at level `BASE_TASK`. -/
def started_as_acquired (d : Decls) (pre : List Event) (mb : task_metadata_block_t) : Prop :=
  ∃ pre0 job crit mb0 v reports,
    pre = pre0 ++ [Event.get_task_metadata_block job crit (some mb0),
                   Event.store_atFinish mb0.block_id v] ++ reports ∧
    (∀ x ∈ reports, ∃ m, x = Event.printf m) ∧
    mb = { mb0 with atFinish := v } ∧
    (((crit = d.CRITICAL_TASK ∨ crit = 3) ∧ v = none) ∨
     (crit = d.BASE_TASK ∧ v = some fn_ptr.base_release_metadata_block))

/-- The property `started_as_acquired` for an event, when it is a start. -/
def start_rule (d : Decls) (pre : List Event) (e : Event) : Prop :=
  ∀ mb, e.started = some mb → started_as_acquired d pre mb

/-- The scheduler operations `main` does not call itself: the release
`free_task_metadata_block` and the drain `wait_all_tasks_finish`. -/
def Event.is_release_or_drain : Event → Bool
  | .free_task_metadata_block _ => true
  | .wait_all_tasks_finish => true
  | _ => false

/-- A `get_task_metadata_block` call that returned `NULL`. -/
def Event.is_failed_acquisition : Event → Bool
  | .get_task_metadata_block _ _ none => true
  | _ => false

/-- How a failed acquisition at level `crit` is answered: report `m` and exit
status `code`.  Critical level (`CRITICAL_TASK` or the literal `3`): one of
the two "Out of metadata blocks" reports and status -4; level `BASE_TASK`: one
of the two "Non-Critical" reports and status -5. -/
def failure_answer (d : Decls) (crit : Nat) (m : Msg) (code : Int) : Prop :=
  ((crit = d.CRITICAL_TASK ∨ crit = 3) ∧
    (m = Msg.out_of_blocks_fft ∨ m = Msg.out_of_blocks_vit) ∧ code = -4) ∨
  (crit = d.BASE_TASK ∧
    (m = Msg.out_of_blocks_noncrit_fft ∨ m = Msg.out_of_blocks_noncrit_vit) ∧ code = -5)

/-- The events `l` end with a failed acquisition and its report, answered
with status `code`, and contain no other failed acquisition. -/
def ends_in_failure (d : Decls) (l : List Event) (code : Int) : Prop :=
  ∃ body job crit m,
    l = body ++ [Event.get_task_metadata_block job crit none, Event.printf m] ∧
    (∀ e ∈ body, e.is_failed_acquisition = false) ∧ failure_answer d crit m code

/-- An acquisition or a start of a descriptor, by job kind (and requested
level), without the descriptor and the payload. -/
inductive DescriptorUse where
  | acquire (job : scheduler_jobs_t) (crit : Nat)
  | start (job : scheduler_jobs_t)
  deriving DecidableEq, Repr

/-- Whether a use is an acquisition. -/
def DescriptorUse.is_acquire : DescriptorUse → Bool
  | .acquire _ _ => true
  | .start _ => false

/-- Whether a use is a start. -/
def DescriptorUse.is_start : DescriptorUse → Bool
  | .acquire _ _ => false
  | .start _ => true

/-- The acquisition or start an event stands for, if it is one. -/
def Event.descriptor_use : Event → Option DescriptorUse
  | .get_task_metadata_block job crit _ => some (.acquire job crit)
  | .start_execution_of_rad_kernel _ _ => some (.start .FFT_TASK)
  | .start_execution_of_vit_kernel _ _ => some (.start .VITERBI_TASK)
  | _ => none

/-- The order of acquisitions and starts of a time step as the specification
gives it for `F` additional FFT and `M` additional Viterbi tasks: one critical
FFT descriptor, then `F` non-critical FFT descriptors, then one critical
Viterbi descriptor (level `3`), then `M` non-critical Viterbi descriptors,
each started right after its acquisition. -/
def expected_uses (d : Decls) (F M : Nat) : List DescriptorUse :=
  [.acquire .FFT_TASK d.CRITICAL_TASK, .start .FFT_TASK] ++
  (List.replicate F [.acquire .FFT_TASK d.BASE_TASK, .start .FFT_TASK]).flatten ++
  [.acquire .VITERBI_TASK 3, .start .VITERBI_TASK] ++
  (List.replicate M [.acquire .VITERBI_TASK d.BASE_TASK, .start .VITERBI_TASK]).flatten

/-- The number given by the options `-F`: the value of the last one, as an
`unsigned`, and `dflt` when there is none. -/
def given_F (dflt : Nat) : List Opt → Nat
  | [] => dflt
  | Opt.F n :: rest => given_F (to_unsigned n) rest
  | _ :: rest => given_F dflt rest

/-- The number given by the options `-M`: the value of the last one, as an
`unsigned`, and `dflt` when there is none. -/
def given_M (dflt : Nat) : List Opt → Nat
  | [] => dflt
  | Opt.M n :: rest => given_M (to_unsigned n) rest
  | _ :: rest => given_M dflt rest

/-- The number given by the options `-S`: the value of the last one, as an
`unsigned`, and `dflt` when there is none. -/
def given_S (dflt : Nat) : List Opt → Nat
  | [] => dflt
  | Opt.S n :: rest => given_S (to_unsigned n) rest
  | _ :: rest => given_S dflt rest

/-- The payload a start event of a time step with input `inp` carries: a radar
start the buffer `radar_inputs`; a Viterbi start with `atFinish = NULL` the
entry of the input feed; a Viterbi start with the finalizer attached the entry
`vdentry2_p` of some loop iteration. -/
def payload_rule (d : Decls) (g : Globals) (sel : Nat → Nat → vit_dict_entry_t)
    (inp : StepInput) : Event → Prop
  | .start_execution_of_rad_kernel _ inputs => inputs = radar_inputs d inp
  | .start_execution_of_vit_kernel mb entry =>
    (mb.atFinish = none ∧ entry = inp.vdentry_p) ∨
    (mb.atFinish = some fn_ptr.base_release_metadata_block ∧
      ∃ i, entry = vdentry2_p d g sel inp i)
  | _ => True

/-- The two results a time step retrieves come from descriptors acquired at
levels `critF` and `critV`: the step ends with the barrier followed by
`finish_execution_of_rad_kernel` on the FFT block acquired at level `critF`
and `finish_execution_of_vit_kernel` on the Viterbi block acquired at level
`critV` (these two results are what `main` then passes to
`plan_and_control`), and both blocks are acquired and started before the
barrier, where only acquisitions, stores, starts and reports occur. -/
def StepRun.results_from_levels (critF critV : Nat) (s : StepRun) : Prop :=
  ∃ mbF mbV issued,
    s.events = issued ++ [Event.wait_all_critical,
      Event.finish_execution_of_rad_kernel { mbF with atFinish := none },
      Event.finish_execution_of_vit_kernel { mbV with atFinish := none }] ∧
    Event.get_task_metadata_block .FFT_TASK critF (some mbF) ∈ issued ∧
    Event.get_task_metadata_block .VITERBI_TASK critV (some mbV) ∈ issued ∧
    (∃ inputs, Event.start_execution_of_rad_kernel { mbF with atFinish := none } inputs
      ∈ issued) ∧
    (∃ entry, Event.start_execution_of_vit_kernel { mbV with atFinish := none } entry
      ∈ issued) ∧
    (∀ e ∈ issued, e.is_issue = true)

/-! ## Timing of the kernel phases -/

/-- A `struct timeval` as `gettimeofday` fills it: seconds and microseconds,
two `long` values. -/
structure timeval where
  tv_sec : Int
  tv_usec : Int
  deriving DecidableEq, Repr

/-- The difference `a - b` of two `long` values, computed in `long`: 64 bits
(`main` prints its `uint64_t` results with `%lu`), wrapping around. -/
def long_sub (a b : Int) : Int :=
  (a - b + 9223372036854775808) % 18446744073709551616 - 9223372036854775808

/-- Conversion of a `long` to `uint64_t`. -/
def to_uint64 (x : Int) : Nat := (x % 18446744073709551616).toNat

/-- The two `uint64_t` accumulators of a phase, such as `iter_cv_sec` and
`iter_cv_usec`. -/
structure PhaseTimer where
  sec : Nat
  usec : Nat
  deriving DecidableEq, Repr

/-- Both accumulators are initialised with `0LL`. -/
def PhaseTimer.initial : PhaseTimer := { sec := 0, usec := 0 }

/-- The two statements after the second `gettimeofday` of a phase:
`x_sec += stop.tv_sec - start.tv_sec; x_usec += stop.tv_usec - start.tv_usec;`
with the differences computed in `long`, converted to `uint64_t` and added
modulo `2^64`. -/
def PhaseTimer.accumulate (t : PhaseTimer) (start stop : timeval) : PhaseTimer :=
  { sec := (t.sec + to_uint64 (long_sub stop.tv_sec start.tv_sec)) % 18446744073709551616
    usec := (t.usec + to_uint64 (long_sub stop.tv_usec start.tv_usec)) % 18446744073709551616 }

/-- The accumulators of a phase after the main loop: one `(start, stop)` pair
of timestamps is accumulated in every time step. -/
def phase_timer : PhaseTimer → List (timeval × timeval) → PhaseTimer
  | t, [] => t
  | t, p :: rest => phase_timer (t.accumulate p.1 p.2) rest

/-- The value `main` prints for a phase:
`(uint64_t) (x_sec) * 1000000 + (uint64_t) (x_usec)`, in `uint64_t`. -/
def run_time (t : PhaseTimer) : Nat :=
  ((t.sec * 1000000) % 18446744073709551616 + t.usec) % 18446744073709551616

/-- The run time `main` reports for a phase whose timestamps were `pairs`. -/
def reported_run_time (pairs : List (timeval × timeval)) : Nat :=
  run_time (phase_timer PhaseTimer.initial pairs)

/-- The time from `start` to `stop` in microseconds, as an integer. -/
def elapsed_usec (p : timeval × timeval) : Int :=
  (p.2.tv_sec - p.1.tv_sec) * 1000000 + (p.2.tv_usec - p.1.tv_usec)

/-- The true total elapsed time of a phase in microseconds. -/
def total_elapsed_usec (pairs : List (timeval × timeval)) : Int :=
  (pairs.map elapsed_usec).sum

/-- A `(start, stop)` pair as the specification takes it: both `tv_usec` lie in
`[0, 999999]` and `stop` is not earlier than `start`. -/
def well_formed_pair (p : timeval × timeval) : Prop :=
  (0 ≤ p.1.tv_usec ∧ p.1.tv_usec ≤ 999999) ∧ (0 ≤ p.2.tv_usec ∧ p.2.tv_usec ≤ 999999) ∧
  (p.1.tv_sec < p.2.tv_sec ∨ (p.1.tv_sec = p.2.tv_sec ∧ p.1.tv_usec ≤ p.2.tv_usec))

/-- Three time steps of a phase; in the first and the last the microsecond
field of `stop` is smaller than that of `start`. -/
def pairs0 : List (timeval × timeval) :=
  [({ tv_sec := 10, tv_usec := 900000 }, { tv_sec := 11, tv_usec := 100000 }),
   ({ tv_sec := 11, tv_usec := 200000 }, { tv_sec := 11, tv_usec := 200500 }),
   ({ tv_sec := 12, tv_usec := 999999 }, { tv_sec := 15, tv_usec := 0 })]

/-! ## Structure of a time step -/

/-- The five ways a time step can go: it completes, or one of the four
acquisition sites fails. -/
theorem time_step_cases (d : Decls) (g : Globals) (sel : Nat → Nat → vit_dict_entry_t)
    (inp : StepInput) :
    (inp.fft_mb_ptr = none ∧
      time_step d g sel inp =
        { events := [Event.get_task_metadata_block .FFT_TASK d.CRITICAL_TASK none,
                     Event.printf Msg.out_of_blocks_fft],
          exit_code := some (-4) })
    ∨ (∃ mbF c, inp.fft_mb_ptr = some mbF ∧
        (additional_fft_tasks d inp g.additional_fft_tasks_per_time_step 0).exit_code = some c ∧
        time_step d g sel inp =
          { events := fft_crit_events d inp mbF ++
              (additional_fft_tasks d inp g.additional_fft_tasks_per_time_step 0).events,
            exit_code := some c })
    ∨ (∃ mbF, inp.fft_mb_ptr = some mbF ∧ inp.vit_mb_ptr = none ∧
        (additional_fft_tasks d inp g.additional_fft_tasks_per_time_step 0).exit_code = none ∧
        time_step d g sel inp =
          { events := fft_crit_events d inp mbF ++
              (additional_fft_tasks d inp g.additional_fft_tasks_per_time_step 0).events ++
              [Event.get_task_metadata_block .VITERBI_TASK 3 none,
               Event.printf Msg.out_of_blocks_vit],
            exit_code := some (-4) })
    ∨ (∃ mbF mbV c, inp.fft_mb_ptr = some mbF ∧ inp.vit_mb_ptr = some mbV ∧
        (additional_fft_tasks d inp g.additional_fft_tasks_per_time_step 0).exit_code = none ∧
        (additional_vit_tasks d g sel inp g.additional_vit_tasks_per_time_step 0).exit_code
          = some c ∧
        time_step d g sel inp =
          { events := fft_crit_events d inp mbF ++
              (additional_fft_tasks d inp g.additional_fft_tasks_per_time_step 0).events ++
              vit_crit_events inp mbV ++
              (additional_vit_tasks d g sel inp g.additional_vit_tasks_per_time_step 0).events,
            exit_code := some c })
    ∨ (∃ mbF mbV, inp.fft_mb_ptr = some mbF ∧ inp.vit_mb_ptr = some mbV ∧
        (additional_fft_tasks d inp g.additional_fft_tasks_per_time_step 0).exit_code = none ∧
        (additional_vit_tasks d g sel inp g.additional_vit_tasks_per_time_step 0).exit_code
          = none ∧
        time_step d g sel inp =
          { events := fft_crit_events d inp mbF ++
              (additional_fft_tasks d inp g.additional_fft_tasks_per_time_step 0).events ++
              vit_crit_events inp mbV ++
              (additional_vit_tasks d g sel inp g.additional_vit_tasks_per_time_step 0).events ++
              closing_events mbF mbV,
            exit_code := none }) := by
  unfold time_step
  cases hF : inp.fft_mb_ptr with
  | none => left; simp
  | some mbF =>
    right
    cases hfl : (additional_fft_tasks d inp g.additional_fft_tasks_per_time_step 0).exit_code with
    | some c =>
      left
      refine ⟨mbF, c, rfl, rfl, ?_⟩
      simp [StepRun.andThen, hfl, fft_crit_events]
    | none =>
      right
      unfold vit_part
      cases hV : inp.vit_mb_ptr with
      | none =>
        left
        refine ⟨mbF, rfl, rfl, ?_⟩
        simp [StepRun.andThen, hfl, fft_crit_events]
      | some mbV =>
        right
        cases hvl : (additional_vit_tasks d g sel inp
            g.additional_vit_tasks_per_time_step 0).exit_code with
        | some c =>
          left
          refine ⟨mbF, mbV, c, rfl, rfl, rfl, ?_⟩
          simp [StepRun.andThen, hfl, hvl, fft_crit_events, vit_crit_events]
        | none =>
          right
          refine ⟨mbF, mbV, rfl, rfl, rfl, ?_⟩
          simp [StepRun.andThen, hfl, hvl, fft_crit_events, vit_crit_events, closing_events]

/-! ## The two loops of additional tasks -/

theorem additional_fft_tasks_is_issue (d : Decls) (inp : StepInput) (n i : Nat) :
    ∀ e ∈ (additional_fft_tasks d inp n i).events, e.is_issue = true := by
  induction n generalizing i with
  | zero => intro e he; simp [additional_fft_tasks] at he
  | succ n ih =>
    intro e he
    unfold additional_fft_tasks at he
    cases hm : inp.fft_mb_ptr_2 i with
    | none =>
      simp only [hm, List.mem_cons, List.mem_singleton, List.not_mem_nil, or_false] at he
      rcases he with rfl | rfl <;> rfl
    | some mb =>
      simp only [hm, StepRun.andThen, List.mem_append, List.mem_cons, List.not_mem_nil,
        or_false] at he
      rcases he with (rfl | rfl | rfl) | he
      · rfl
      · rfl
      · rfl
      · exact ih (i + 1) e he

theorem msg_num_warning_is_printf (d : Decls) (g : Globals) (inp : StepInput) :
    msg_num_warning d g inp = [] ∨ msg_num_warning d g inp = [Event.printf Msg.msg_num_warning] := by
  unfold msg_num_warning
  split
  · right; rfl
  · left; rfl

theorem additional_vit_tasks_is_issue (d : Decls) (g : Globals)
    (sel : Nat → Nat → vit_dict_entry_t) (inp : StepInput) (n i : Nat) :
    ∀ e ∈ (additional_vit_tasks d g sel inp n i).events, e.is_issue = true := by
  induction n generalizing i with
  | zero => intro e he; simp [additional_vit_tasks] at he
  | succ n ih =>
    intro e he
    unfold additional_vit_tasks at he
    cases hm : inp.vit_mb_ptr_2 i with
    | none =>
      simp only [hm, List.mem_cons, List.mem_singleton, List.not_mem_nil, or_false] at he
      rcases he with rfl | rfl <;> rfl
    | some mb =>
      simp only [hm, StepRun.andThen, List.mem_append, List.mem_cons, List.not_mem_nil,
        or_false] at he
      rcases he with (((rfl | rfl) | hw) | rfl) | he
      · rfl
      · rfl
      · rcases msg_num_warning_is_printf d g inp with h | h <;> rw [h] at hw
        · simp at hw
        · simp at hw; rw [hw]; rfl
      · rfl
      · exact ih (i + 1) e he

/-! ## Structure of a run -/

theorem main_loop_steps_mem (d : Decls) (g : Globals) (sel : Nat → Nat → vit_dict_entry_t)
    (inps : List StepInput) :
    ∀ s ∈ (main_loop d g sel inps).1, ∃ inp ∈ inps, s = time_step d g sel inp := by
  induction inps with
  | nil => intro s hs; simp [main_loop] at hs
  | cons inp rest ih =>
    intro s hs
    unfold main_loop at hs
    cases hc : (time_step d g sel inp).exit_code with
    | some c =>
      simp only [hc, List.mem_singleton] at hs
      exact ⟨inp, List.mem_cons_self _ _, hs⟩
    | none =>
      simp only [hc, List.mem_cons] at hs
      rcases hs with rfl | hs
      · exact ⟨inp, List.mem_cons_self _ _, rfl⟩
      · obtain ⟨inp2, h1, h2⟩ := ih s hs
        exact ⟨inp2, List.mem_cons_of_mem _ h1, h2⟩

/-- Reports are printed by the option loop only when it ends the process. -/
theorem getopt_loop_events (g : Globals) (opts : List Opt) :
    ((getopt_loop g opts).exit_code = none ∧ (getopt_loop g opts).events = []) ∨
    (∃ c m, (getopt_loop g opts).exit_code = some c ∧
      (getopt_loop g opts).events = [Event.printf m]) := by
  induction opts generalizing g with
  | nil => left; simp [getopt_loop]
  | cons op rest ih =>
    cases op <;> simp only [getopt_loop] <;> try exact ih _
    · right; exact ⟨0, Msg.usage, rfl, rfl⟩
    · split
      · exact ih _
      · right; exact ⟨-1, Msg.illegal_fft_logn, rfl, rfl⟩

/-- The ways a run of `main` can go. -/
theorem main_cases (d : Decls) (opts : List Opt) (w : World) :
    (∃ c m, (getopt_loop (initial_globals d) opts).exit_code = some c ∧
      main d opts w =
        { prologue := [Event.printf m], steps := [], epilogue := [], result := .exit c })
    ∨ (∃ m t, (getopt_loop (initial_globals d) opts).exit_code = none ∧
      main d opts w =
        { prologue := [Event.initialize_scheduler, Event.printf m], steps := [],
          epilogue := [], result := t })
    ∨ (∃ c, (getopt_loop (initial_globals d) opts).exit_code = none ∧
      (main_loop d (run_globals d opts) w.select_specific_vit_input w.steps).2 = some c ∧
      main d opts w =
        { prologue := [Event.initialize_scheduler,
            Event.policy_str_index (run_globals d opts).global_scheduler_selection_policy],
          steps := (main_loop d (run_globals d opts) w.select_specific_vit_input w.steps).1,
          epilogue := [], result := .exit c })
    ∨ ((getopt_loop (initial_globals d) opts).exit_code = none ∧
      (main_loop d (run_globals d opts) w.select_specific_vit_input w.steps).2 = none ∧
      main d opts w =
        { prologue := [Event.initialize_scheduler,
            Event.policy_str_index (run_globals d opts).global_scheduler_selection_policy],
          steps := (main_loop d (run_globals d opts) w.select_specific_vit_input w.steps).1,
          epilogue := [Event.shutdown_scheduler], result := .returned 0 }) := by
  unfold main run_globals
  rcases getopt_loop_events (initial_globals d) opts with ⟨h1, h2⟩ | ⟨c, m, h1, h2⟩
  · right
    simp only [h1, h2, List.nil_append, List.singleton_append]
    split
    · left; exact ⟨_, _, trivial, rfl⟩
    · split
      · left; exact ⟨_, _, trivial, rfl⟩
      · split
        · left; exact ⟨_, _, trivial, rfl⟩
        · split
          · left; exact ⟨_, _, trivial, rfl⟩
          · split
            · left; exact ⟨_, _, trivial, rfl⟩
            · right
              cases hl : (main_loop d (getopt_loop (initial_globals d) opts).globals
                  w.select_specific_vit_input w.steps).2 with
              | some c => left; exact ⟨c, trivial, rfl, rfl⟩
              | none => right; exact ⟨trivial, rfl, rfl⟩
  · left
    refine ⟨c, m, h1, ?_⟩
    simp only [h1, h2]

theorem main_steps_mem (d : Decls) (opts : List Opt) (w : World) :
    ∀ s ∈ (main d opts w).steps,
      ∃ inp ∈ w.steps, s = time_step d (run_globals d opts) w.select_specific_vit_input inp := by
  intro s hs
  rcases main_cases d opts w with ⟨c, m, _, h⟩ | ⟨m, t, _, h⟩ | ⟨c, _, _, h⟩ | ⟨_, _, h⟩ <;>
    rw [h] at hs
  · simp at hs
  · simp at hs
  · exact main_loop_steps_mem _ _ _ _ s hs
  · exact main_loop_steps_mem _ _ _ _ s hs

/-! ## The barrier inside a time step -/

theorem count_wait_of_is_issue {l : List Event} (h : ∀ e ∈ l, e.is_issue = true) :
    l.count Event.wait_all_critical = 0 := by
  rw [List.count_eq_zero]
  intro hmem
  have := h _ hmem
  simp [Event.is_issue] at this

theorem fft_crit_events_is_issue (d : Decls) (inp : StepInput) (mb : task_metadata_block_t) :
    ∀ e ∈ fft_crit_events d inp mb, e.is_issue = true := by
  intro e he
  simp only [fft_crit_events, List.mem_cons, List.mem_singleton, List.not_mem_nil, or_false] at he
  rcases he with rfl | rfl | rfl <;> rfl

theorem vit_crit_events_is_issue (inp : StepInput) (mb : task_metadata_block_t) :
    ∀ e ∈ vit_crit_events inp mb, e.is_issue = true := by
  intro e he
  simp only [vit_crit_events, List.mem_cons, List.mem_singleton, List.not_mem_nil, or_false] at he
  rcases he with rfl | rfl | rfl <;> rfl

/-- Every time step either runs through the barrier or is cut short before it. -/
theorem time_step_barrier (d : Decls) (g : Globals) (sel : Nat → Nat → vit_dict_entry_t)
    (inp : StepInput) :
    (time_step d g sel inp).completes_through_barrier ∨
    (time_step d g sel inp).aborted_before_barrier := by
  have hfl := additional_fft_tasks_is_issue d inp g.additional_fft_tasks_per_time_step 0
  have hvl := additional_vit_tasks_is_issue d g sel inp g.additional_vit_tasks_per_time_step 0
  rcases time_step_cases d g sel inp with ⟨_, h⟩ | ⟨mbF, c, _, _, h⟩ | ⟨mbF, _, _, _, h⟩ |
      ⟨mbF, mbV, c, _, _, _, _, h⟩ | ⟨mbF, mbV, _, _, _, _, h⟩
  · right
    rw [h]
    have hall : ∀ e ∈ [Event.get_task_metadata_block .FFT_TASK d.CRITICAL_TASK none,
        Event.printf Msg.out_of_blocks_fft], e.is_issue = true := by
      intro e he
      simp only [List.mem_cons, List.mem_singleton, List.not_mem_nil, or_false] at he
      rcases he with rfl | rfl <;> rfl
    exact ⟨by simp, count_wait_of_is_issue hall, hall⟩
  · right
    rw [h]
    have hall : ∀ e ∈ fft_crit_events d inp mbF ++
        (additional_fft_tasks d inp g.additional_fft_tasks_per_time_step 0).events,
        e.is_issue = true := by
      intro e he
      rcases List.mem_append.1 he with he | he
      · exact fft_crit_events_is_issue d inp mbF e he
      · exact hfl e he
    exact ⟨by simp, count_wait_of_is_issue hall, hall⟩
  · right
    rw [h]
    have hall : ∀ e ∈ fft_crit_events d inp mbF ++
        (additional_fft_tasks d inp g.additional_fft_tasks_per_time_step 0).events ++
        [Event.get_task_metadata_block .VITERBI_TASK 3 none,
         Event.printf Msg.out_of_blocks_vit], e.is_issue = true := by
      intro e he
      rcases List.mem_append.1 he with he | he
      · rcases List.mem_append.1 he with he | he
        · exact fft_crit_events_is_issue d inp mbF e he
        · exact hfl e he
      · simp only [List.mem_cons, List.mem_singleton, List.not_mem_nil, or_false] at he
        rcases he with rfl | rfl <;> rfl
    exact ⟨by simp, count_wait_of_is_issue hall, hall⟩
  · right
    rw [h]
    have hall : ∀ e ∈ fft_crit_events d inp mbF ++
        (additional_fft_tasks d inp g.additional_fft_tasks_per_time_step 0).events ++
        vit_crit_events inp mbV ++
        (additional_vit_tasks d g sel inp g.additional_vit_tasks_per_time_step 0).events,
        e.is_issue = true := by
      intro e he
      rcases List.mem_append.1 he with he | he
      · rcases List.mem_append.1 he with he | he
        · rcases List.mem_append.1 he with he | he
          · exact fft_crit_events_is_issue d inp mbF e he
          · exact hfl e he
        · exact vit_crit_events_is_issue inp mbV e he
      · exact hvl e he
    exact ⟨by simp, count_wait_of_is_issue hall, hall⟩
  · left
    rw [h]
    have hall : ∀ e ∈ fft_crit_events d inp mbF ++
        (additional_fft_tasks d inp g.additional_fft_tasks_per_time_step 0).events ++
        vit_crit_events inp mbV ++
        (additional_vit_tasks d g sel inp g.additional_vit_tasks_per_time_step 0).events,
        e.is_issue = true := by
      intro e he
      rcases List.mem_append.1 he with he | he
      · rcases List.mem_append.1 he with he | he
        · rcases List.mem_append.1 he with he | he
          · exact fft_crit_events_is_issue d inp mbF e he
          · exact hfl e he
        · exact vit_crit_events_is_issue inp mbV e he
      · exact hvl e he
    refine ⟨rfl, ?_, _, { mbF with atFinish := none }, { mbV with atFinish := none },
      radar_inputs d inp, inp.vdentry_p, rfl, hall, ?_, ?_⟩
    · show (_ ++ closing_events mbF mbV).count Event.wait_all_critical = 1
      rw [List.count_append, count_wait_of_is_issue hall]
      simp [closing_events]
    · simp [fft_crit_events]
    · simp [vit_crit_events]

/-- C1, the claim as stated, fails: in a run whose first critical FFT
acquisition finds the pool exhausted, the time step entered contains no call
of `wait_all_critical`, so "exactly once in every time step" does not hold. -/
theorem C1_counterexample_step_without_barrier :
    ¬ ∀ s ∈ (main decls0 [] (world0 [step_no_fft])).steps,
        s.events.count Event.wait_all_critical = 1 := by
  decide

/-! ## Events and what precedes them -/

theorem eachAfter_append {Q : List Event → Event → Prop}
    (hQ : ∀ a pre e, Q pre e → Q (a ++ pre) e) {a b : List Event}
    (ha : EachAfter Q a) (hb : EachAfter Q b) : EachAfter Q (a ++ b) := by
  intro pre e post h
  rcases List.append_eq_append_iff.1 h with ⟨a2, h1, h2⟩ | ⟨c2, h1, h2⟩
  · rw [h1]
    exact hQ a a2 e (hb a2 e post h2)
  · cases c2 with
    | nil =>
      simp only [List.nil_append, List.append_nil] at h1 h2
      have := hQ a [] e (hb [] e post (by simpa using h2.symm))
      simpa [h1] using this
    | cons x c3 =>
      simp only [List.cons_append, List.cons.injEq] at h2
      obtain ⟨rfl, _⟩ := h2
      exact ha pre e c3 h1

theorem eachAfter_nil {Q : List Event → Event → Prop} : EachAfter Q [] := by
  intro pre e post h
  cases pre <;> simp at h

theorem eachAfter_flatten {Q : List Event → Event → Prop}
    (hQ : ∀ a pre e, Q pre e → Q (a ++ pre) e) {ls : List (List Event)}
    (h : ∀ l ∈ ls, EachAfter Q l) : EachAfter Q ls.flatten := by
  induction ls with
  | nil => exact eachAfter_nil
  | cons l rest ih =>
    rw [List.flatten_cons]
    exact eachAfter_append hQ (h l (List.mem_cons_self _ _))
      (ih (fun l2 hl2 => h l2 (List.mem_cons_of_mem _ hl2)))

theorem eachAfter_of_forall {Q : List Event → Event → Prop} {l : List Event}
    (h : ∀ e ∈ l, ∀ pre, Q pre e) : EachAfter Q l := by
  intro pre e post hl
  exact h e (by rw [hl]; simp) pre

/-- When an event with property `P` is found in a list whose only event with
`P` is `x`, the split is at `x`. -/
theorem split_at_unique (P : Event → Prop) (body tail pre post : List Event) (x e : Event)
    (hb : ∀ b ∈ body, ¬ P b) (ht : ∀ b ∈ tail, ¬ P b) (he : P e)
    (h : body ++ x :: tail = pre ++ e :: post) : pre = body ∧ e = x ∧ post = tail := by
  induction body generalizing pre with
  | nil =>
    cases pre with
    | nil =>
      simp only [List.nil_append, List.cons.injEq] at h
      exact ⟨rfl, h.1.symm, h.2.symm⟩
    | cons p pre2 =>
      simp only [List.nil_append, List.cons_append, List.cons.injEq] at h
      exact absurd he (ht e (by rw [h.2]; simp))
  | cons b bs ih =>
    cases pre with
    | nil =>
      simp only [List.nil_append, List.cons_append, List.cons.injEq] at h
      exact absurd (h.1 ▸ he) (hb b (List.mem_cons_self _ _))
    | cons p pre2 =>
      simp only [List.cons_append, List.cons.injEq] at h
      obtain ⟨h1, h2, h3⟩ := ih pre2 (fun b2 hb2 => hb b2 (List.mem_cons_of_mem _ hb2)) h.2
      exact ⟨by rw [h.1, h1], h2, h3⟩

/-! ## C2: the completion action at the time of the start -/

theorem start_rule_mono (d : Decls) (a pre : List Event) (e : Event)
    (h : start_rule d pre e) : start_rule d (a ++ pre) e := by
  intro mb hmb
  obtain ⟨pre0, job, crit, mb0, v, reports, h1, h2, h3, h4⟩ := h mb hmb
  refine ⟨a ++ pre0, job, crit, mb0, v, reports, ?_, h2, h3, h4⟩
  rw [h1]; simp

theorem start_rule_of_not_started (d : Decls) {l : List Event}
    (h : ∀ e ∈ l, e.started = none) : EachAfter (start_rule d) l := by
  apply eachAfter_of_forall
  intro e he pre mb hmb
  rw [h e he] at hmb
  cases hmb

/-- An acquisition, the store into `atFinish`, reports, and the start of the
block so prepared satisfy the rule. -/
theorem start_rule_chunk (d : Decls) (job : scheduler_jobs_t) (crit : Nat)
    (mb0 : task_metadata_block_t) (v : Option fn_ptr) (reports : List Event) (st : Event)
    (hr : ∀ x ∈ reports, ∃ m, x = Event.printf m)
    (hst : st.started = some { mb0 with atFinish := v })
    (hv : ((crit = d.CRITICAL_TASK ∨ crit = 3) ∧ v = none) ∨
      (crit = d.BASE_TASK ∧ v = some fn_ptr.base_release_metadata_block)) :
    EachAfter (start_rule d)
      ([Event.get_task_metadata_block job crit (some mb0),
        Event.store_atFinish mb0.block_id v] ++ reports ++ [st]) := by
  intro pre e post h mb hmb
  have hbody : ∀ b ∈ [Event.get_task_metadata_block job crit (some mb0),
      Event.store_atFinish mb0.block_id v] ++ reports, ¬ (b.started ≠ none) := by
    intro b hb
    rcases List.mem_append.1 hb with hb | hb
    · simp only [List.mem_cons, List.mem_singleton, List.not_mem_nil, or_false] at hb
      rcases hb with rfl | rfl <;> simp [Event.started]
    · obtain ⟨m, rfl⟩ := hr b hb
      simp [Event.started]
  have he : e.started ≠ none := by rw [hmb]; simp
  obtain ⟨h1, h2, _⟩ := split_at_unique (fun b => b.started ≠ none) _ [] pre post st e hbody
    (by simp) he h
  subst h2
  rw [hst] at hmb
  refine ⟨[], job, crit, mb0, v, reports, by rw [h1]; simp, hr, ?_, hv⟩
  exact (Option.some.inj hmb).symm

theorem additional_fft_tasks_start_rule (d : Decls) (inp : StepInput) (n i : Nat) :
    EachAfter (start_rule d) (additional_fft_tasks d inp n i).events := by
  induction n generalizing i with
  | zero => simp only [additional_fft_tasks]; exact eachAfter_nil
  | succ n ih =>
    unfold additional_fft_tasks
    cases hm : inp.fft_mb_ptr_2 i with
    | none =>
      apply start_rule_of_not_started
      intro e he
      simp only [List.mem_cons, List.mem_singleton, List.not_mem_nil, or_false] at he
      rcases he with rfl | rfl <;> rfl
    | some mb =>
      simp only [StepRun.andThen]
      refine eachAfter_append (start_rule_mono d) ?_ (ih (i + 1))
      exact start_rule_chunk d .FFT_TASK d.BASE_TASK mb _ [] _ (by simp) rfl
        (Or.inr ⟨rfl, rfl⟩)

theorem additional_vit_tasks_start_rule (d : Decls) (g : Globals)
    (sel : Nat → Nat → vit_dict_entry_t) (inp : StepInput) (n i : Nat) :
    EachAfter (start_rule d) (additional_vit_tasks d g sel inp n i).events := by
  induction n generalizing i with
  | zero => simp only [additional_vit_tasks]; exact eachAfter_nil
  | succ n ih =>
    unfold additional_vit_tasks
    cases hm : inp.vit_mb_ptr_2 i with
    | none =>
      apply start_rule_of_not_started
      intro e he
      simp only [List.mem_cons, List.mem_singleton, List.not_mem_nil, or_false] at he
      rcases he with rfl | rfl <;> rfl
    | some mb =>
      simp only [StepRun.andThen]
      refine eachAfter_append (start_rule_mono d) ?_ (ih (i + 1))
      refine start_rule_chunk d .VITERBI_TASK d.BASE_TASK mb _ (msg_num_warning d g inp) _ ?_ rfl
        (Or.inr ⟨rfl, rfl⟩)
      intro x hx
      rcases msg_num_warning_is_printf d g inp with h | h <;> rw [h] at hx
      · simp at hx
      · exact ⟨_, by simpa using hx⟩

theorem time_step_start_rule (d : Decls) (g : Globals) (sel : Nat → Nat → vit_dict_entry_t)
    (inp : StepInput) : EachAfter (start_rule d) (time_step d g sel inp).events := by
  have hfl := additional_fft_tasks_start_rule d inp g.additional_fft_tasks_per_time_step 0
  have hvl := additional_vit_tasks_start_rule d g sel inp g.additional_vit_tasks_per_time_step 0
  have hfc : ∀ mbF, EachAfter (start_rule d) (fft_crit_events d inp mbF) := fun mbF =>
    start_rule_chunk d .FFT_TASK d.CRITICAL_TASK mbF none [] _ (by simp) rfl
      (Or.inl ⟨Or.inl rfl, rfl⟩)
  have hvc : ∀ mbV, EachAfter (start_rule d) (vit_crit_events inp mbV) := fun mbV =>
    start_rule_chunk d .VITERBI_TASK 3 mbV none [] _ (by simp) rfl
      (Or.inl ⟨Or.inr rfl, rfl⟩)
  have happ := @eachAfter_append _ (start_rule_mono d)
  rcases time_step_cases d g sel inp with ⟨_, h⟩ | ⟨mbF, c, _, _, h⟩ | ⟨mbF, _, _, _, h⟩ |
      ⟨mbF, mbV, c, _, _, _, _, h⟩ | ⟨mbF, mbV, _, _, _, _, h⟩ <;> rw [h]
  · apply start_rule_of_not_started
    intro e he
    simp only [List.mem_cons, List.mem_singleton, List.not_mem_nil, or_false] at he
    rcases he with rfl | rfl <;> rfl
  · exact happ (hfc mbF) hfl
  · refine happ (happ (hfc mbF) hfl) ?_
    apply start_rule_of_not_started
    intro e he
    simp only [List.mem_cons, List.mem_singleton, List.not_mem_nil, or_false] at he
    rcases he with rfl | rfl <;> rfl
  · exact happ (happ (happ (hfc mbF) hfl) (hvc mbV)) hvl
  · refine happ (happ (happ (happ (hfc mbF) hfl) (hvc mbV)) hvl) ?_
    apply start_rule_of_not_started
    intro e he
    simp only [closing_events, List.mem_cons, List.mem_singleton, List.not_mem_nil,
      or_false] at he
    rcases he with rfl | rfl | rfl <;> rfl

/-- A property of events and what precedes them holds along a whole run when it
holds in the prologue, in every step and in the epilogue. -/
theorem run_eachAfter {Q : List Event → Event → Prop}
    (hQ : ∀ a pre e, Q pre e → Q (a ++ pre) e) (r : Run)
    (hp : EachAfter Q r.prologue) (hs : ∀ s ∈ r.steps, EachAfter Q s.events)
    (he : EachAfter Q r.epilogue) : EachAfter Q r.trace := by
  unfold Run.trace
  refine eachAfter_append hQ (eachAfter_append hQ hp (eachAfter_flatten hQ ?_)) he
  intro l hl
  obtain ⟨s, hs1, rfl⟩ := List.mem_map.1 hl
  exact hs s hs1

theorem main_start_rule (d : Decls) (opts : List Opt) (w : World) :
    EachAfter (start_rule d) (main d opts w).trace := by
  apply run_eachAfter (start_rule_mono d)
  · rcases main_cases d opts w with ⟨c, m, _, h⟩ | ⟨m, t, _, h⟩ | ⟨c, _, _, h⟩ | ⟨_, _, h⟩ <;>
      rw [h] <;> apply start_rule_of_not_started <;> intro e he <;>
      simp only [List.mem_cons, List.mem_singleton, List.not_mem_nil, or_false] at he
    · rw [he]; rfl
    · rcases he with rfl | rfl <;> rfl
    · rcases he with rfl | rfl <;> rfl
    · rcases he with rfl | rfl <;> rfl
  · intro s hs
    obtain ⟨inp, _, rfl⟩ := main_steps_mem d opts w s hs
    exact time_step_start_rule d _ _ inp
  · rcases main_cases d opts w with ⟨c, m, _, h⟩ | ⟨m, t, _, h⟩ | ⟨c, _, _, h⟩ | ⟨_, _, h⟩ <;>
      rw [h] <;> apply start_rule_of_not_started <;> intro e he <;>
      simp only [List.mem_cons, List.mem_singleton, List.not_mem_nil, or_false] at he
    rw [he]; rfl

/-- C2.  Whenever `main` calls `start_execution_of_rad_kernel` or
`start_execution_of_vit_kernel` on a descriptor `mb`, the calls just before it
are the `get_task_metadata_block` call that returned this block and the store
into its `atFinish` field (at most a printed warning lies between the store and
the start); the level of that acquisition is `CRITICAL_TASK`, the literal `3`
or `BASE_TASK`; and, the level `BASE_TASK` being different from
`CRITICAL_TASK` and from `3`, the `atFinish` of `mb` at the call is `NULL` if
the block was acquired at critical level and the finalizer
`base_release_metadata_block` if it was acquired at level `BASE_TASK`. -/
theorem C2_atFinish_at_start (d : Decls) (opts : List Opt) (w : World)
    (hB : d.BASE_TASK ≠ d.CRITICAL_TASK) (h3 : d.BASE_TASK ≠ 3)
    (pre post : List Event) (e : Event) (mb : task_metadata_block_t)
    (hsplit : (main d opts w).trace = pre ++ e :: post) (hst : e.started = some mb) :
    ∃ pre0 job crit mb0 reports,
      pre = pre0 ++ [Event.get_task_metadata_block job crit (some mb0),
                     Event.store_atFinish mb0.block_id mb.atFinish] ++ reports ∧
      (∀ x ∈ reports, ∃ m, x = Event.printf m) ∧
      mb.block_id = mb0.block_id ∧
      (crit = d.CRITICAL_TASK ∨ crit = 3 ∨ crit = d.BASE_TASK) ∧
      ((crit = d.CRITICAL_TASK ∨ crit = 3) → mb.atFinish = none) ∧
      (crit = d.BASE_TASK → mb.atFinish = some fn_ptr.base_release_metadata_block) := by
  obtain ⟨pre0, job, crit, mb0, v, reports, h1, h2, h3', h4⟩ :=
    main_start_rule d opts w pre e post hsplit mb hst
  subst h3'
  refine ⟨pre0, job, crit, mb0, reports, h1, h2, rfl, ?_, ?_, ?_⟩
  · rcases h4 with ⟨hc | hc, _⟩ | ⟨hc, _⟩
    · exact Or.inl hc
    · exact Or.inr (Or.inl hc)
    · exact Or.inr (Or.inr hc)
  · intro hc
    rcases h4 with ⟨_, hv⟩ | ⟨hb, _⟩
    · exact hv
    · rcases hc with hc | hc
      · exact absurd (hb.symm.trans hc) hB
      · exact absurd (hb.symm.trans hc) h3
  · intro hc
    rcases h4 with ⟨hc2, _⟩ | ⟨_, hv⟩
    · rcases hc2 with hc2 | hc2
      · exact absurd (hc.symm.trans hc2) hB
      · exact absurd (hc.symm.trans hc2) h3
    · exact hv

/-- C2 at the start of the non-critical FFT task of a run with `-F 1`: it is
the eighth event of the run. -/
theorem C2_atFinish_witness :
    decls0.BASE_TASK ≠ decls0.CRITICAL_TASK ∧ decls0.BASE_TASK ≠ 3 ∧
    (main decls0 [Opt.F 1] (world0 [step_ok])).trace =
      (main decls0 [Opt.F 1] (world0 [step_ok])).trace.take 7 ++
        Event.start_execution_of_rad_kernel
          { block_id := 10, atFinish := some fn_ptr.base_release_metadata_block }
          [100, 101, 102, 103] ::
        (main decls0 [Opt.F 1] (world0 [step_ok])).trace.drop 8 ∧
    ∃ pre0 job crit mb0 reports,
      (main decls0 [Opt.F 1] (world0 [step_ok])).trace.take 7 =
        pre0 ++ [Event.get_task_metadata_block job crit (some mb0),
                 Event.store_atFinish mb0.block_id
                   (some fn_ptr.base_release_metadata_block)] ++ reports ∧
      (∀ x ∈ reports, ∃ m, x = Event.printf m) ∧
      10 = mb0.block_id ∧
      (crit = decls0.CRITICAL_TASK ∨ crit = 3 ∨ crit = decls0.BASE_TASK) ∧
      ((crit = decls0.CRITICAL_TASK ∨ crit = 3) →
        some fn_ptr.base_release_metadata_block = none) ∧
      (crit = decls0.BASE_TASK →
        some fn_ptr.base_release_metadata_block =
          some fn_ptr.base_release_metadata_block) :=
  ⟨by decide, by decide, by decide,
    C2_atFinish_at_start decls0 [Opt.F 1] (world0 [step_ok]) (by decide) (by decide)
      ((main decls0 [Opt.F 1] (world0 [step_ok])).trace.take 7)
      ((main decls0 [Opt.F 1] (world0 [step_ok])).trace.drop 8)
      (Event.start_execution_of_rad_kernel
        { block_id := 10, atFinish := some fn_ptr.base_release_metadata_block }
        [100, 101, 102, 103])
      { block_id := 10, atFinish := some fn_ptr.base_release_metadata_block }
      (by decide) rfl⟩

/-! ## C3: the finalizer, and the calls `main` never makes -/

theorem mem_trace_iff (r : Run) (e : Event) :
    e ∈ r.trace ↔ e ∈ r.prologue ∨ (∃ s ∈ r.steps, e ∈ s.events) ∨ e ∈ r.epilogue := by
  unfold Run.trace
  simp only [List.mem_append, List.mem_flatten, List.mem_map]
  constructor
  · rintro ((h | ⟨l, ⟨s, hs, rfl⟩, he⟩) | h)
    · exact Or.inl h
    · exact Or.inr (Or.inl ⟨s, hs, he⟩)
    · exact Or.inr (Or.inr h)
  · rintro (h | ⟨s, hs, he⟩ | h)
    · exact Or.inl (Or.inl h)
    · exact Or.inl (Or.inr ⟨_, ⟨s, hs, rfl⟩, he⟩)
    · exact Or.inr h

theorem time_step_not_release_or_drain (d : Decls) (g : Globals)
    (sel : Nat → Nat → vit_dict_entry_t) (inp : StepInput) :
    ∀ e ∈ (time_step d g sel inp).events, e.is_release_or_drain = false := by
  have hissue : ∀ e : Event, e.is_issue = true → e.is_release_or_drain = false := by
    intro e he
    cases e <;> simp [Event.is_issue] at he <;> rfl
  intro e he
  rcases time_step_barrier d g sel inp with ⟨_, _, issued, mbF, mbV, _, _, h, hi, _, _⟩ | ⟨_, _, hi⟩
  · rw [h] at he
    simp only [List.mem_append, List.mem_cons, List.mem_singleton, List.not_mem_nil,
      or_false] at he
    rcases he with he | rfl | rfl | rfl
    · exact hissue e (hi e he)
    · rfl
    · rfl
    · rfl
  · exact hissue e (hi e he)

/-- No run of `main` contains a call of `free_task_metadata_block` or of
`wait_all_tasks_finish`. -/
theorem main_not_release_or_drain (d : Decls) (opts : List Opt) (w : World) :
    ∀ e ∈ (main d opts w).trace, e.is_release_or_drain = false := by
  intro e he
  rcases (mem_trace_iff _ e).1 he with hp | ⟨s, hs, hes⟩ | hp
  · rcases main_cases d opts w with ⟨c, m, _, h⟩ | ⟨m, t, _, h⟩ | ⟨c, _, _, h⟩ | ⟨_, _, h⟩ <;>
      rw [h] at hp <;>
      simp only [List.mem_cons, List.mem_singleton, List.not_mem_nil, or_false] at hp
    · rw [hp]; rfl
    · rcases hp with rfl | rfl <;> rfl
    · rcases hp with rfl | rfl <;> rfl
    · rcases hp with rfl | rfl <;> rfl
  · obtain ⟨inp, _, rfl⟩ := main_steps_mem d opts w s hs
    exact time_step_not_release_or_drain d _ _ inp e hes
  · rcases main_cases d opts w with ⟨c, m, _, h⟩ | ⟨m, t, _, h⟩ | ⟨c, _, _, h⟩ | ⟨_, _, h⟩ <;>
      rw [h] at hp <;>
      simp only [List.mem_cons, List.mem_singleton, List.not_mem_nil, or_false] at hp
    rw [hp]; rfl

/-- C3.  The finalizer `base_release_metadata_block(mb)` consists of exactly
one scheduler call, `free_task_metadata_block` on `mb` itself, and `main`
never calls `free_task_metadata_block`: no run of `main` contains a release
call on any descriptor, in particular none on a non-critical one. -/
theorem C3_finalizer_releases_its_block (d : Decls) (opts : List Opt) (w : World)
    (mb : task_metadata_block_t) :
    base_release_metadata_block mb = [Event.free_task_metadata_block mb] ∧
    (base_release_metadata_block mb).count (Event.free_task_metadata_block mb) = 1 ∧
    ¬ ∃ mb2, Event.free_task_metadata_block mb2 ∈ (main d opts w).trace := by
  refine ⟨rfl, by simp [base_release_metadata_block], ?_⟩
  rintro ⟨mb2, h⟩
  have := main_not_release_or_drain d opts w _ h
  simp [Event.is_release_or_drain] at this

/-! ## Failed acquisitions -/

theorem ends_in_failure_append (d : Decls) {a l : List Event} {code : Int}
    (ha : ∀ e ∈ a, e.is_failed_acquisition = false) (h : ends_in_failure d l code) :
    ends_in_failure d (a ++ l) code := by
  obtain ⟨body, job, crit, m, h1, h2, h3⟩ := h
  refine ⟨a ++ body, job, crit, m, by rw [h1]; simp, ?_, h3⟩
  intro e he
  rcases List.mem_append.1 he with he | he
  · exact ha e he
  · exact h2 e he

theorem additional_fft_tasks_failure (d : Decls) (inp : StepInput) (n i : Nat) :
    ((additional_fft_tasks d inp n i).exit_code = none ∧
      ∀ e ∈ (additional_fft_tasks d inp n i).events, e.is_failed_acquisition = false) ∨
    ((additional_fft_tasks d inp n i).exit_code = some (-5) ∧
      ends_in_failure d (additional_fft_tasks d inp n i).events (-5)) := by
  induction n generalizing i with
  | zero => left; simp [additional_fft_tasks]
  | succ n ih =>
    unfold additional_fft_tasks
    cases hm : inp.fft_mb_ptr_2 i with
    | none =>
      right
      refine ⟨rfl, [], .FFT_TASK, d.BASE_TASK, Msg.out_of_blocks_noncrit_fft, rfl, by simp, ?_⟩
      exact Or.inr ⟨rfl, Or.inl rfl, rfl⟩
    | some mb =>
      have hhead : ∀ e ∈ [Event.get_task_metadata_block .FFT_TASK d.BASE_TASK (some mb),
          Event.store_atFinish mb.block_id (some fn_ptr.base_release_metadata_block),
          Event.start_execution_of_rad_kernel
            { mb with atFinish := some fn_ptr.base_release_metadata_block }
            (radar_inputs d inp)], e.is_failed_acquisition = false := by
        intro e he
        simp only [List.mem_cons, List.mem_singleton, List.not_mem_nil, or_false] at he
        rcases he with rfl | rfl | rfl <;> rfl
      simp only [StepRun.andThen]
      rcases ih (i + 1) with ⟨h1, h2⟩ | ⟨h1, h2⟩
      · left
        refine ⟨h1, ?_⟩
        intro e he
        rcases List.mem_append.1 he with he | he
        · exact hhead e he
        · exact h2 e he
      · right
        exact ⟨h1, ends_in_failure_append d hhead h2⟩

theorem additional_vit_tasks_failure (d : Decls) (g : Globals)
    (sel : Nat → Nat → vit_dict_entry_t) (inp : StepInput) (n i : Nat) :
    ((additional_vit_tasks d g sel inp n i).exit_code = none ∧
      ∀ e ∈ (additional_vit_tasks d g sel inp n i).events, e.is_failed_acquisition = false) ∨
    ((additional_vit_tasks d g sel inp n i).exit_code = some (-5) ∧
      ends_in_failure d (additional_vit_tasks d g sel inp n i).events (-5)) := by
  induction n generalizing i with
  | zero => left; simp [additional_vit_tasks]
  | succ n ih =>
    unfold additional_vit_tasks
    cases hm : inp.vit_mb_ptr_2 i with
    | none =>
      right
      refine ⟨rfl, [], .VITERBI_TASK, d.BASE_TASK, Msg.out_of_blocks_noncrit_vit, rfl,
        by simp, ?_⟩
      exact Or.inr ⟨rfl, Or.inr rfl, rfl⟩
    | some mb =>
      have hhead : ∀ e ∈ [Event.get_task_metadata_block .VITERBI_TASK d.BASE_TASK (some mb),
          Event.store_atFinish mb.block_id (some fn_ptr.base_release_metadata_block)] ++
          msg_num_warning d g inp ++
          [Event.start_execution_of_vit_kernel
            { mb with atFinish := some fn_ptr.base_release_metadata_block }
            (vdentry2_p d g sel inp i)], e.is_failed_acquisition = false := by
        intro e he
        simp only [List.mem_append, List.mem_cons, List.mem_singleton, List.not_mem_nil,
          or_false] at he
        rcases he with ((rfl | rfl) | hw) | rfl
        · rfl
        · rfl
        · rcases msg_num_warning_is_printf d g inp with h | h <;> rw [h] at hw
          · simp at hw
          · simp at hw; rw [hw]; rfl
        · rfl
      simp only [StepRun.andThen]
      rcases ih (i + 1) with ⟨h1, h2⟩ | ⟨h1, h2⟩
      · left
        refine ⟨h1, ?_⟩
        intro e he
        rcases List.mem_append.1 he with he | he
        · exact hhead e he
        · exact h2 e he
      · right
        exact ⟨h1, ends_in_failure_append d hhead h2⟩

theorem fft_crit_events_not_failed (d : Decls) (inp : StepInput) (mb : task_metadata_block_t) :
    ∀ e ∈ fft_crit_events d inp mb, e.is_failed_acquisition = false := by
  intro e he
  simp only [fft_crit_events, List.mem_cons, List.mem_singleton, List.not_mem_nil, or_false] at he
  rcases he with rfl | rfl | rfl <;> rfl

theorem vit_crit_events_not_failed (inp : StepInput) (mb : task_metadata_block_t) :
    ∀ e ∈ vit_crit_events inp mb, e.is_failed_acquisition = false := by
  intro e he
  simp only [vit_crit_events, List.mem_cons, List.mem_singleton, List.not_mem_nil, or_false] at he
  rcases he with rfl | rfl | rfl <;> rfl

theorem closing_events_not_failed (mbF mbV : task_metadata_block_t) :
    ∀ e ∈ closing_events mbF mbV, e.is_failed_acquisition = false := by
  intro e he
  simp only [closing_events, List.mem_cons, List.mem_singleton, List.not_mem_nil, or_false] at he
  rcases he with rfl | rfl | rfl <;> rfl

theorem forall_mem_append {P : Event → Prop} {a b : List Event}
    (ha : ∀ e ∈ a, P e) (hb : ∀ e ∈ b, P e) : ∀ e ∈ a ++ b, P e := by
  intro e he
  rcases List.mem_append.1 he with he | he
  · exact ha e he
  · exact hb e he

/-- A time step either has no failed acquisition and does not exit, or ends
with the first failed acquisition, its report and `exit`. -/
theorem time_step_failure (d : Decls) (g : Globals) (sel : Nat → Nat → vit_dict_entry_t)
    (inp : StepInput) :
    ((time_step d g sel inp).exit_code = none ∧
      ∀ e ∈ (time_step d g sel inp).events, e.is_failed_acquisition = false) ∨
    (∃ c, (time_step d g sel inp).exit_code = some c ∧
      ends_in_failure d (time_step d g sel inp).events c) := by
  have hfl := additional_fft_tasks_failure d inp g.additional_fft_tasks_per_time_step 0
  have hvl := additional_vit_tasks_failure d g sel inp g.additional_vit_tasks_per_time_step 0
  rcases time_step_cases d g sel inp with ⟨_, h⟩ | ⟨mbF, c, _, hc, h⟩ | ⟨mbF, _, _, hc, h⟩ |
      ⟨mbF, mbV, c, _, _, hc, hc2, h⟩ | ⟨mbF, mbV, _, _, hc, hc2, h⟩ <;> rw [h]
  · right
    exact ⟨-4, rfl, [], .FFT_TASK, d.CRITICAL_TASK, Msg.out_of_blocks_fft, rfl, by simp,
      Or.inl ⟨Or.inl rfl, Or.inl rfl, rfl⟩⟩
  · right
    rcases hfl with ⟨h1, _⟩ | ⟨h1, h2⟩
    · rw [h1] at hc; cases hc
    · rw [h1] at hc
      cases hc
      exact ⟨-5, rfl, ends_in_failure_append d (fft_crit_events_not_failed d inp mbF) h2⟩
  · right
    rcases hfl with ⟨_, h2⟩ | ⟨h1, _⟩
    · exact ⟨-4, rfl, _, .VITERBI_TASK, 3, Msg.out_of_blocks_vit, rfl,
        forall_mem_append (fft_crit_events_not_failed d inp mbF) h2,
        Or.inl ⟨Or.inr rfl, Or.inr rfl, rfl⟩⟩
    · rw [h1] at hc; cases hc
  · right
    rcases hfl with ⟨_, h2⟩ | ⟨h1, _⟩
    · rcases hvl with ⟨h3, _⟩ | ⟨h3, h4⟩
      · rw [h3] at hc2; cases hc2
      · rw [h3] at hc2
        cases hc2
        refine ⟨-5, rfl, ?_⟩
        have := ends_in_failure_append d (forall_mem_append (forall_mem_append
          (fft_crit_events_not_failed d inp mbF) h2) (vit_crit_events_not_failed inp mbV)) h4
        simpa using this
    · rw [h1] at hc; cases hc
  · left
    rcases hfl with ⟨_, h2⟩ | ⟨h1, _⟩
    · rcases hvl with ⟨_, h4⟩ | ⟨h3, _⟩
      · exact ⟨rfl, forall_mem_append (forall_mem_append (forall_mem_append (forall_mem_append
          (fft_crit_events_not_failed d inp mbF) h2) (vit_crit_events_not_failed inp mbV)) h4)
          (closing_events_not_failed mbF mbV)⟩
      · rw [h3] at hc2; cases hc2
    · rw [h1] at hc; cases hc

theorem main_loop_cons_none (d : Decls) (g : Globals) (sel : Nat → Nat → vit_dict_entry_t)
    (inp : StepInput) (rest : List StepInput) (h : (time_step d g sel inp).exit_code = none) :
    main_loop d g sel (inp :: rest) =
      (time_step d g sel inp :: (main_loop d g sel rest).1, (main_loop d g sel rest).2) := by
  simp [main_loop, h]

theorem main_loop_cons_some (d : Decls) (g : Globals) (sel : Nat → Nat → vit_dict_entry_t)
    (inp : StepInput) (rest : List StepInput) (c : Int)
    (h : (time_step d g sel inp).exit_code = some c) :
    main_loop d g sel (inp :: rest) = ([time_step d g sel inp], some c) := by
  simp [main_loop, h]

/-- The main loop stops at the first step that exits: all steps before the
last do not exit, and the loop's status is that of the last step. -/
theorem main_loop_exit (d : Decls) (g : Globals) (sel : Nat → Nat → vit_dict_entry_t)
    (inps : List StepInput) :
    ((main_loop d g sel inps).2 = none ∧
      ∀ s ∈ (main_loop d g sel inps).1, s.exit_code = none) ∨
    (∃ before last c, (main_loop d g sel inps).1 = before ++ [last] ∧
      (∀ s ∈ before, s.exit_code = none) ∧ last.exit_code = some c ∧
      (main_loop d g sel inps).2 = some c) := by
  induction inps with
  | nil => left; simp [main_loop]
  | cons inp rest ih =>
    cases hc : (time_step d g sel inp).exit_code with
    | some c =>
      right
      rw [main_loop_cons_some d g sel inp rest c hc]
      exact ⟨[], time_step d g sel inp, c, by simp, by simp, hc, rfl⟩
    | none =>
      rw [main_loop_cons_none d g sel inp rest hc]
      rcases ih with ⟨h1, h2⟩ | ⟨before, last, c, h1, h2, h3, h4⟩
      · left
        refine ⟨h1, ?_⟩
        intro s hs
        rcases List.mem_cons.1 hs with rfl | hs
        · exact hc
        · exact h2 s hs
      · right
        refine ⟨time_step d g sel inp :: before, last, c, by simp [h1], ?_, h3, h4⟩
        intro s hs
        rcases List.mem_cons.1 hs with rfl | hs
        · exact hc
        · exact h2 s hs

/-- A step of a run that exits is the last step of the run, and its status is
the status of the process. -/
theorem main_result_of_step_exit (d : Decls) (opts : List Opt) (w : World) (s : StepRun)
    (c : Int) (hs : s ∈ (main d opts w).steps) (hc : s.exit_code = some c) :
    (main d opts w).result = .exit c ∧ (main d opts w).epilogue = [] ∧
    ∃ before, (main d opts w).steps = before ++ [s] ∧ ∀ s2 ∈ before, s2.exit_code = none := by
  have hl := main_loop_exit d (run_globals d opts) w.select_specific_vit_input w.steps
  rcases main_cases d opts w with ⟨c1, m, _, h⟩ | ⟨m, t, _, h⟩ | ⟨c1, _, h2, h⟩ | ⟨_, h2, h⟩ <;>
    rw [h] at hs ⊢
  · simp at hs
  · simp at hs
  · rcases hl with ⟨h3, _⟩ | ⟨before, last, c2, h3, h4, h5, h6⟩
    · rw [h3] at h2; cases h2
    · simp only at hs ⊢
      rw [h3] at hs
      rw [h6] at h2
      cases h2
      rcases List.mem_append.1 hs with hs | hs
      · rw [h4 s hs] at hc; cases hc
      · simp only [List.mem_singleton] at hs
        subst hs
        rw [h5] at hc
        cases hc
        exact ⟨rfl, trivial, before, h3, h4⟩
  · rcases hl with ⟨_, h4⟩ | ⟨before, last, c2, _, _, _, h6⟩
    · rw [h4 s hs] at hc; cases hc
    · rw [h6] at h2; cases h2

/-- A run of `main` either contains no failed acquisition, or ends, by `exit`,
with the first failed acquisition and its report. -/
theorem main_failure (d : Decls) (opts : List Opt) (w : World) :
    (∀ e ∈ (main d opts w).trace, e.is_failed_acquisition = false) ∨
    (∃ c, (main d opts w).result = .exit c ∧ ends_in_failure d (main d opts w).trace c) := by
  by_cases hex : ∃ s ∈ (main d opts w).steps, s.exit_code ≠ none
  · right
    obtain ⟨s, hs, hne⟩ := hex
    obtain ⟨c, hc⟩ := Option.ne_none_iff_exists'.1 hne
    obtain ⟨hr, hepi, before, hsteps, hbefore⟩ := main_result_of_step_exit d opts w s c hs hc
    refine ⟨c, hr, ?_⟩
    have hpro : ∀ e ∈ (main d opts w).prologue, e.is_failed_acquisition = false := by
      intro e he
      rcases main_cases d opts w with ⟨c, m, _, h⟩ | ⟨m, t, _, h⟩ | ⟨c, _, _, h⟩ | ⟨_, _, h⟩ <;>
        rw [h] at he <;>
        simp only [List.mem_cons, List.mem_singleton, List.not_mem_nil, or_false] at he
      · rw [he]; rfl
      · rcases he with rfl | rfl <;> rfl
      · rcases he with rfl | rfl <;> rfl
      · rcases he with rfl | rfl <;> rfl
    have hbef : ∀ e ∈ (before.map StepRun.events).flatten, e.is_failed_acquisition = false := by
      intro e he
      obtain ⟨l, hl, hel⟩ := List.mem_flatten.1 he
      obtain ⟨s2, hs2, rfl⟩ := List.mem_map.1 hl
      have hs2m : s2 ∈ (main d opts w).steps := by rw [hsteps]; simp [hs2]
      obtain ⟨inp, _, rfl⟩ := main_steps_mem d opts w s2 hs2m
      rcases time_step_failure d (run_globals d opts) w.select_specific_vit_input inp with
        ⟨_, h2⟩ | ⟨c2, h1, _⟩
      · exact h2 e hel
      · rw [hbefore _ hs2] at h1; cases h1
    have hlast : ends_in_failure d s.events c := by
      obtain ⟨inp, _, rfl⟩ := main_steps_mem d opts w s hs
      rcases time_step_failure d (run_globals d opts) w.select_specific_vit_input inp with
        ⟨h1, _⟩ | ⟨c2, h1, h2⟩
      · rw [h1] at hc; cases hc
      · rw [h1] at hc
        cases hc
        exact h2
    have htrace : (main d opts w).trace =
        ((main d opts w).prologue ++ (before.map StepRun.events).flatten) ++ s.events := by
      unfold Run.trace
      rw [hepi, hsteps]
      simp
    rw [htrace]
    exact ends_in_failure_append d (forall_mem_append hpro hbef) hlast
  · left
    intro e he
    rcases (mem_trace_iff _ e).1 he with hp | ⟨s, hs, hes⟩ | hp
    · rcases main_cases d opts w with ⟨c, m, _, h⟩ | ⟨m, t, _, h⟩ | ⟨c, _, _, h⟩ | ⟨_, _, h⟩ <;>
        rw [h] at hp <;>
        simp only [List.mem_cons, List.mem_singleton, List.not_mem_nil, or_false] at hp
      · rw [hp]; rfl
      · rcases hp with rfl | rfl <;> rfl
      · rcases hp with rfl | rfl <;> rfl
      · rcases hp with rfl | rfl <;> rfl
    · have hnone : s.exit_code = none := by
        by_contra hne
        exact hex ⟨s, hs, hne⟩
      obtain ⟨inp, _, rfl⟩ := main_steps_mem d opts w s hs
      rcases time_step_failure d (run_globals d opts) w.select_specific_vit_input inp with
        ⟨_, h2⟩ | ⟨c2, h1, _⟩
      · exact h2 e hes
      · rw [hnone] at h1; cases h1
    · rcases main_cases d opts w with ⟨c, m, _, h⟩ | ⟨m, t, _, h⟩ | ⟨c, _, _, h⟩ | ⟨_, _, h⟩ <;>
        rw [h] at hp <;>
        simp only [List.mem_cons, List.mem_singleton, List.not_mem_nil, or_false] at hp
      rw [hp]; rfl

/-! ## C1: the barrier and the failed acquisitions -/

/-- C1, amended.  Every time step `main` enters is of one of two kinds.
Either no `get_task_metadata_block` call of the step returns `NULL`, and then
the step runs to its end: `wait_all_critical` is called exactly once in it,
after every start of the step (all acquisitions, stores and starts precede it,
the two critical starts among them) and before
`finish_execution_of_rad_kernel` and `finish_execution_of_vit_kernel`, which
are the last two calls of the step.  Or a `get_task_metadata_block` call of the
step returns `NULL`, and then the step ends by `exit` right after that call
and its report (status -4 at a critical site, -5 at a `BASE_TASK` site): the
barrier is called zero times in it and no finish call occurs in it.  In no
step does a finish call precede the barrier. -/
theorem C1_barrier_after_starts_before_finishes (d : Decls) (opts : List Opt) (w : World)
    (s : StepRun) (hs : s ∈ (main d opts w).steps) :
    ((∀ e ∈ s.events, e.is_failed_acquisition = false) ∧ s.completes_through_barrier) ∨
    ((∃ job crit, Event.get_task_metadata_block job crit none ∈ s.events) ∧
      s.aborted_before_barrier ∧
      ∃ c, s.exit_code = some c ∧ ends_in_failure d s.events c) := by
  obtain ⟨inp, _, rfl⟩ := main_steps_mem d opts w s hs
  rcases time_step_failure d (run_globals d opts) w.select_specific_vit_input inp with
    ⟨hnone, hno⟩ | ⟨c, hc, hfail⟩
  · left
    refine ⟨hno, ?_⟩
    rcases time_step_barrier d (run_globals d opts) w.select_specific_vit_input inp with
      h | ⟨hne, _⟩
    · exact h
    · exact absurd hnone hne
  · right
    have hmem : ∃ job crit, Event.get_task_metadata_block job crit none ∈
        (time_step d (run_globals d opts) w.select_specific_vit_input inp).events := by
      obtain ⟨body, job, crit, m, h4, _, _⟩ := hfail
      exact ⟨job, crit, by rw [h4]; simp⟩
    refine ⟨hmem, ?_, c, hc, hfail⟩
    rcases time_step_barrier d (run_globals d opts) w.select_specific_vit_input inp with
      ⟨hn, _⟩ | h
    · rw [hn] at hc; cases hc
    · exact h

/-- C1, amended, at a run with one additional task of each kind. -/
theorem C1_barrier_witness :
    time_step decls0 (run_globals decls0 [Opt.F 1, Opt.M 1])
        (world0 [step_ok]).select_specific_vit_input step_ok
      ∈ (main decls0 [Opt.F 1, Opt.M 1] (world0 [step_ok])).steps ∧
    (((∀ e ∈ (time_step decls0 (run_globals decls0 [Opt.F 1, Opt.M 1])
          (world0 [step_ok]).select_specific_vit_input step_ok).events,
        e.is_failed_acquisition = false) ∧
      (time_step decls0 (run_globals decls0 [Opt.F 1, Opt.M 1])
        (world0 [step_ok]).select_specific_vit_input step_ok).completes_through_barrier) ∨
     ((∃ job crit, Event.get_task_metadata_block job crit none ∈
        (time_step decls0 (run_globals decls0 [Opt.F 1, Opt.M 1])
          (world0 [step_ok]).select_specific_vit_input step_ok).events) ∧
      (time_step decls0 (run_globals decls0 [Opt.F 1, Opt.M 1])
        (world0 [step_ok]).select_specific_vit_input step_ok).aborted_before_barrier ∧
      ∃ c, (time_step decls0 (run_globals decls0 [Opt.F 1, Opt.M 1])
          (world0 [step_ok]).select_specific_vit_input step_ok).exit_code = some c ∧
        ends_in_failure decls0
          (time_step decls0 (run_globals decls0 [Opt.F 1, Opt.M 1])
            (world0 [step_ok]).select_specific_vit_input step_ok).events c)) :=
  ⟨by decide, C1_barrier_after_starts_before_finishes decls0 [Opt.F 1, Opt.M 1]
    (world0 [step_ok]) _ (by decide)⟩

/-! ## C4: exhaustion at a non-critical acquisition -/

/-- C4, the claim as stated, fails: with one additional FFT task per step
(`-F 1`) and the pool exhausted at its acquisition, the failed acquisition is
followed by the exit of the process with status -5; the barrier is never
reached and no critical result is retrieved. -/
theorem C4_counterexample_exit_instead_of_skip :
    Event.get_task_metadata_block .FFT_TASK decls0.BASE_TASK none ∈
        (main decls0 [Opt.F 1] (world0 [step_no_fft_2])).trace ∧
    (main decls0 [Opt.F 1] (world0 [step_no_fft_2])).result = .exit (-5) ∧
    Event.wait_all_critical ∉ (main decls0 [Opt.F 1] (world0 [step_no_fft_2])).trace ∧
    (∀ mb, Event.finish_execution_of_rad_kernel mb ∉
        (main decls0 [Opt.F 1] (world0 [step_no_fft_2])).trace) := by
  refine ⟨by decide, by decide, by decide, ?_⟩
  intro mb h
  have h2 : (main decls0 [Opt.F 1] (world0 [step_no_fft_2])).trace =
      [Event.initialize_scheduler, Event.policy_str_index 0,
       Event.get_task_metadata_block .FFT_TASK 3
         (some { block_id := 0, atFinish := some (fn_ptr.other 77) }),
       Event.store_atFinish 0 none,
       Event.start_execution_of_rad_kernel { block_id := 0, atFinish := none }
         [100, 101, 102, 103],
       Event.get_task_metadata_block .FFT_TASK 1 none,
       Event.printf Msg.out_of_blocks_noncrit_fft] := by decide
  rw [h2] at h
  simp at h

/-- C4, amended.  When, in a time step, the acquisition of a descriptor for
an additional non-critical job (level `BASE_TASK`, which differs from
`CRITICAL_TASK` and from `3`) returns `NULL`, `main` prints the "Non-Critical"
out-of-blocks report and the process exits with status -5: the failed
acquisition and its report are the last events of the step, the step is cut
short before the barrier (no `wait_all_critical`, no finish call in it), and
it is the last step of the run. -/
theorem C4_noncritical_exhaustion_exits (d : Decls) (opts : List Opt) (w : World)
    (hB : d.BASE_TASK ≠ d.CRITICAL_TASK) (h3 : d.BASE_TASK ≠ 3)
    (s : StepRun) (hs : s ∈ (main d opts w).steps) (job : scheduler_jobs_t)
    (hfail : Event.get_task_metadata_block job d.BASE_TASK none ∈ s.events) :
    (main d opts w).result = .exit (-5) ∧ s.exit_code = some (-5) ∧
    s.aborted_before_barrier ∧
    (∃ body m, s.events = body ++
        [Event.get_task_metadata_block job d.BASE_TASK none, Event.printf m] ∧
      (m = Msg.out_of_blocks_noncrit_fft ∨ m = Msg.out_of_blocks_noncrit_vit)) ∧
    (∃ before, (main d opts w).steps = before ++ [s]) := by
  obtain ⟨inp, _, hsi⟩ := main_steps_mem d opts w s hs
  have hf := time_step_failure d (run_globals d opts) w.select_specific_vit_input inp
  rw [← hsi] at hf
  rcases hf with ⟨_, h2⟩ | ⟨c, h1, body, job2, crit, m, h4, h5, h6⟩
  · have := h2 _ hfail
    simp [Event.is_failed_acquisition] at this
  · obtain ⟨e1, e2, e3⟩ := List.mem_iff_append.1 hfail
    have hsp := split_at_unique (fun b => b.is_failed_acquisition = true)
      body [Event.printf m] e1 e2 (Event.get_task_metadata_block job2 crit none)
      (Event.get_task_metadata_block job d.BASE_TASK none)
      (fun b hb => by simp [h5 b hb])
      (by simp [Event.is_failed_acquisition]) rfl (by rw [← h4, e3])
    obtain ⟨_, hx, _⟩ := hsp
    injection hx with hj hcr _
    subst hj
    subst hcr
    have hc : c = -5 ∧
        (m = Msg.out_of_blocks_noncrit_fft ∨ m = Msg.out_of_blocks_noncrit_vit) := by
      rcases h6 with ⟨hcr, _, _⟩ | ⟨_, hm, hc⟩
      · rcases hcr with hcr | hcr
        · exact absurd hcr hB
        · exact absurd hcr h3
      · exact ⟨hc, hm⟩
    obtain ⟨hc1, hm⟩ := hc
    subst hc1
    obtain ⟨hr, _, before, hsteps, _⟩ := main_result_of_step_exit d opts w s (-5) hs h1
    refine ⟨hr, h1, ?_, ⟨body, m, h4, hm⟩, ⟨before, hsteps⟩⟩
    have hb := time_step_barrier d (run_globals d opts) w.select_specific_vit_input inp
    rw [← hsi] at hb
    rcases hb with ⟨hn, _⟩ | hb
    · rw [hn] at h1; cases h1
    · exact hb

/-- C4, amended, at the run with `-M 1` and the pool exhausted at the
non-critical Viterbi acquisition. -/
theorem C4_noncritical_exhaustion_witness :
    decls0.BASE_TASK ≠ decls0.CRITICAL_TASK ∧ decls0.BASE_TASK ≠ 3 ∧
    time_step decls0 (run_globals decls0 [Opt.M 1])
        (world0 [step_no_vit_2]).select_specific_vit_input step_no_vit_2
      ∈ (main decls0 [Opt.M 1] (world0 [step_no_vit_2])).steps ∧
    Event.get_task_metadata_block .VITERBI_TASK decls0.BASE_TASK none ∈
      (time_step decls0 (run_globals decls0 [Opt.M 1])
        (world0 [step_no_vit_2]).select_specific_vit_input step_no_vit_2).events ∧
    (main decls0 [Opt.M 1] (world0 [step_no_vit_2])).result = .exit (-5) :=
  ⟨by decide, by decide, by decide, by decide,
    (C4_noncritical_exhaustion_exits decls0 [Opt.M 1] (world0 [step_no_vit_2])
      (by decide) (by decide)
      (time_step decls0 (run_globals decls0 [Opt.M 1])
        (world0 [step_no_vit_2]).select_specific_vit_input step_no_vit_2)
      (by decide) .VITERBI_TASK (by decide)).1⟩

/-! ## C5: a `NULL` descriptor is never used -/

/-- C5.  Whenever a `get_task_metadata_block` call of `main` returns `NULL`,
the only thing `main` does after it is to print one report: no store into
`atFinish`, no start and no finish call follows, on any descriptor.  The
process ends by `exit`, and (the level `BASE_TASK` being different from
`CRITICAL_TASK` and from `3`) the status is -4 exactly when the acquisition
was at critical level (`CRITICAL_TASK`, or the literal `3` of the Viterbi
call) and -5 exactly when it was at level `BASE_TASK`. -/
theorem C5_null_descriptor_never_used (d : Decls) (opts : List Opt) (w : World)
    (hB : d.BASE_TASK ≠ d.CRITICAL_TASK) (h3 : d.BASE_TASK ≠ 3)
    (pre post : List Event) (job : scheduler_jobs_t) (crit : Nat)
    (hsplit : (main d opts w).trace =
      pre ++ Event.get_task_metadata_block job crit none :: post) :
    (∃ m, post = [Event.printf m]) ∧
    (crit = d.CRITICAL_TASK ∨ crit = 3 ∨ crit = d.BASE_TASK) ∧
    ((crit = d.CRITICAL_TASK ∨ crit = 3) ↔ (main d opts w).result = .exit (-4)) ∧
    (crit = d.BASE_TASK ↔ (main d opts w).result = .exit (-5)) := by
  rcases main_failure d opts w with hno | ⟨c, hr, body, job2, crit2, m, h4, h5, h6⟩
  · have := hno (Event.get_task_metadata_block job crit none) (by rw [hsplit]; simp)
    simp [Event.is_failed_acquisition] at this
  · have hsp := split_at_unique (fun b => b.is_failed_acquisition = true)
      body [Event.printf m] pre post (Event.get_task_metadata_block job2 crit2 none)
      (Event.get_task_metadata_block job crit none)
      (fun b hb => by simp [h5 b hb])
      (by simp [Event.is_failed_acquisition]) rfl (by rw [← h4, hsplit])
    obtain ⟨_, hx, hpost⟩ := hsp
    injection hx with hj hcr _
    subst hj
    subst hcr
    rw [hr]
    refine ⟨⟨m, hpost⟩, ?_, ?_, ?_⟩
    · rcases h6 with ⟨hc | hc, _, _⟩ | ⟨hc, _, _⟩
      · exact Or.inl hc
      · exact Or.inr (Or.inl hc)
      · exact Or.inr (Or.inr hc)
    · constructor
      · intro hc
        rcases h6 with ⟨_, _, h⟩ | ⟨hb, _, _⟩
        · rw [h]
        · rcases hc with hc | hc
          · exact absurd (hb.symm.trans hc) hB
          · exact absurd (hb.symm.trans hc) h3
      · intro hres
        rcases h6 with ⟨hc, _, _⟩ | ⟨_, _, h⟩
        · exact hc
        · rw [h] at hres
          exact absurd hres (by decide)
    · constructor
      · intro hc
        rcases h6 with ⟨hc2, _, _⟩ | ⟨_, _, h⟩
        · rcases hc2 with hc2 | hc2
          · exact absurd (hc.symm.trans hc2) hB
          · exact absurd (hc.symm.trans hc2) h3
        · rw [h]
      · intro hres
        rcases h6 with ⟨_, _, h⟩ | ⟨hc, _, _⟩
        · rw [h] at hres
          exact absurd hres (by decide)
        · exact hc

/-- C5 at the run whose critical FFT acquisition finds the pool exhausted. -/
theorem C5_null_descriptor_witness :
    decls0.BASE_TASK ≠ decls0.CRITICAL_TASK ∧ decls0.BASE_TASK ≠ 3 ∧
    (main decls0 [] (world0 [step_no_fft])).trace =
      [Event.initialize_scheduler, Event.policy_str_index 0] ++
        Event.get_task_metadata_block .FFT_TASK 3 none ::
        [Event.printf Msg.out_of_blocks_fft] ∧
    (((3 : Nat) = decls0.CRITICAL_TASK ∨ (3 : Nat) = 3) ↔
      (main decls0 [] (world0 [step_no_fft])).result = .exit (-4)) :=
  ⟨by decide, by decide, by decide,
    (C5_null_descriptor_never_used decls0 [] (world0 [step_no_fft]) (by decide) (by decide)
      [Event.initialize_scheduler, Event.policy_str_index 0]
      [Event.printf Msg.out_of_blocks_fft] .FFT_TASK 3 (by decide)).2.2.1⟩

/-! ## C6: validation of the selection policy -/

/-- C6 at its failing input.  With two selection policies
(`NUM_SELECTION_POLICIES = 2`) and the option `-P 2`, the test
`global_scheduler_selection_policy > NUM_SELECTION_POLICIES` does not reject
the value: `main` reads `scheduler_selection_policy_str[2]`, which is not an
index below `NUM_SELECTION_POLICIES`, enters the main loop and ends with
`return 0`; the value `3` is the first one rejected. -/
theorem C6_policy_equal_to_count_is_accepted :
    (main decls0 [Opt.P 2] (world0 [step_ok])).prologue =
      [Event.initialize_scheduler, Event.policy_str_index 2] ∧
    ¬ (2 < decls0.NUM_SELECTION_POLICIES) ∧
    (main decls0 [Opt.P 2] (world0 [step_ok])).steps.length = 1 ∧
    (main decls0 [Opt.P 2] (world0 [step_ok])).result = .returned 0 ∧
    (main decls0 [Opt.P 3] (world0 [step_ok])).trace =
      [Event.initialize_scheduler, Event.printf Msg.policy_too_large] ∧
    (main decls0 [Opt.P 3] (world0 [step_ok])).result = .exit (-1) := by
  decide

/-! ## C7: no drain before shutdown -/

/-- C7 at its failing input.  No run of `main` contains a call of
`wait_all_tasks_finish`; and in the run with one additional FFT task per step
(`-F 1`) and one time step, the non-critical descriptor 10 is started with the
finalizer attached, and what follows up to `shutdown_scheduler` is the
critical Viterbi acquisition and start, the barrier on the critical
descriptors and the retrieval of the results of the critical descriptors 0 and
1: nothing waits for descriptor 10. -/
theorem C7_shutdown_without_drain :
    (∀ (d : Decls) (opts : List Opt) (w : World),
      Event.wait_all_tasks_finish ∉ (main d opts w).trace) ∧
    (main decls0 [Opt.F 1] (world0 [step_ok])).trace =
      [Event.initialize_scheduler, Event.policy_str_index 0,
       Event.get_task_metadata_block .FFT_TASK 3
         (some { block_id := 0, atFinish := some (fn_ptr.other 77) }),
       Event.store_atFinish 0 none,
       Event.start_execution_of_rad_kernel { block_id := 0, atFinish := none }
         [100, 101, 102, 103],
       Event.get_task_metadata_block .FFT_TASK 1 (some { block_id := 10, atFinish := none }),
       Event.store_atFinish 10 (some fn_ptr.base_release_metadata_block),
       Event.start_execution_of_rad_kernel
         { block_id := 10, atFinish := some fn_ptr.base_release_metadata_block }
         [100, 101, 102, 103],
       Event.get_task_metadata_block .VITERBI_TASK 3 (some { block_id := 1, atFinish := none }),
       Event.store_atFinish 1 none,
       Event.start_execution_of_vit_kernel { block_id := 1, atFinish := none } (entry0 5),
       Event.wait_all_critical,
       Event.finish_execution_of_rad_kernel { block_id := 0, atFinish := none },
       Event.finish_execution_of_vit_kernel { block_id := 1, atFinish := none },
       Event.shutdown_scheduler] := by
  refine ⟨?_, by decide⟩
  intro d opts w h
  have := main_not_release_or_drain d opts w _ h
  simp [Event.is_release_or_drain] at this

/-! ## C8: the initialize/shutdown bracket -/

theorem time_step_not_bracket (d : Decls) (g : Globals)
    (sel : Nat → Nat → vit_dict_entry_t) (inp : StepInput) :
    ∀ e ∈ (time_step d g sel inp).events,
      e ≠ Event.initialize_scheduler ∧ e ≠ Event.shutdown_scheduler := by
  have hissue : ∀ e : Event, e.is_issue = true →
      e ≠ Event.initialize_scheduler ∧ e ≠ Event.shutdown_scheduler := by
    intro e he
    cases e <;> simp [Event.is_issue] at he <;> simp
  intro e he
  rcases time_step_barrier d g sel inp with ⟨_, _, issued, mbF, mbV, _, _, h, hi, _, _⟩ | ⟨_, _, hi⟩
  · rw [h] at he
    simp only [List.mem_append, List.mem_cons, List.mem_singleton, List.not_mem_nil,
      or_false] at he
    rcases he with he | rfl | rfl | rfl
    · exact hissue e (hi e he)
    · simp
    · simp
    · simp
  · exact hissue e (hi e he)

/-- C8, the claim as stated, fails: with the option `-h` the process exits
during option parsing, and `initialize_scheduler` is not called at all. -/
theorem C8_counterexample_help_option :
    (main decls0 [Opt.h] (world0 [step_ok])).trace.count Event.initialize_scheduler ≠ 1 := by
  decide

/-- C8, amended.  When option parsing ends the process (`-h`, or an illegal
`-f` value), a run of `main` consists of printed output only: no scheduler
operation is called.  On every other execution `initialize_scheduler` is the
first event and is called exactly once; every acquisition, start, barrier and
finish call lies after it; and `shutdown_scheduler` is called at most once, as
the last event, after all of them. -/
theorem C8_scheduler_calls_bracketed (d : Decls) (opts : List Opt) (w : World) :
    ((getopt_loop (initial_globals d) opts).exit_code ≠ none ∧
      ∀ e ∈ (main d opts w).trace, ∃ m, e = Event.printf m) ∨
    ((getopt_loop (initial_globals d) opts).exit_code = none ∧
      (main d opts w).trace.count Event.initialize_scheduler = 1 ∧
      (main d opts w).trace.count Event.shutdown_scheduler ≤ 1 ∧
      ∃ ops fin, (main d opts w).trace = Event.initialize_scheduler :: ops ++ fin ∧
        (∀ e ∈ ops, e ≠ Event.initialize_scheduler ∧ e ≠ Event.shutdown_scheduler) ∧
        (fin = [] ∨ fin = [Event.shutdown_scheduler])) := by
  have key : ∀ ops fin : List Event,
      (main d opts w).trace = Event.initialize_scheduler :: ops ++ fin →
      (∀ e ∈ ops, e ≠ Event.initialize_scheduler ∧ e ≠ Event.shutdown_scheduler) →
      (fin = [] ∨ fin = [Event.shutdown_scheduler]) →
      (main d opts w).trace.count Event.initialize_scheduler = 1 ∧
      (main d opts w).trace.count Event.shutdown_scheduler ≤ 1 ∧
      ∃ ops fin, (main d opts w).trace = Event.initialize_scheduler :: ops ++ fin ∧
        (∀ e ∈ ops, e ≠ Event.initialize_scheduler ∧ e ≠ Event.shutdown_scheduler) ∧
        (fin = [] ∨ fin = [Event.shutdown_scheduler]) := by
    intro ops fin h1 h2 h3
    have hi : ops.count Event.initialize_scheduler = 0 :=
      List.count_eq_zero.2 (fun hm => (h2 _ hm).1 rfl)
    have hs : ops.count Event.shutdown_scheduler = 0 :=
      List.count_eq_zero.2 (fun hm => (h2 _ hm).2 rfl)
    refine ⟨?_, ?_, ops, fin, h1, h2, h3⟩
    · rw [h1]
      rcases h3 with rfl | rfl <;> simp [List.count_cons, hi]
    · rw [h1]
      rcases h3 with rfl | rfl <;> simp [List.count_cons, hs]
  have hsteps : ∀ e ∈ ((main d opts w).steps.map StepRun.events).flatten,
      e ≠ Event.initialize_scheduler ∧ e ≠ Event.shutdown_scheduler := by
    intro e he
    obtain ⟨l, hl, hel⟩ := List.mem_flatten.1 he
    obtain ⟨s, hs, rfl⟩ := List.mem_map.1 hl
    obtain ⟨inp, _, rfl⟩ := main_steps_mem d opts w s hs
    exact time_step_not_bracket d _ _ inp e hel
  rcases main_cases d opts w with ⟨c, m, h0, h⟩ | ⟨m, t, h0, h⟩ | ⟨c, h0, _, h⟩ | ⟨h0, _, h⟩
  · left
    refine ⟨by rw [h0]; simp, ?_⟩
    intro e he
    rw [h] at he
    simp only [Run.trace, List.map_nil, List.flatten_nil, List.append_nil, List.mem_singleton]
      at he
    exact ⟨m, he⟩
  · right
    refine ⟨h0, key [Event.printf m] [] ?_ ?_ (Or.inl rfl)⟩
    · rw [h]; simp [Run.trace]
    · intro e he
      simp only [List.mem_singleton] at he
      subst he
      simp
  · right
    refine ⟨h0, key (Event.policy_str_index
        (run_globals d opts).global_scheduler_selection_policy ::
        ((main d opts w).steps.map StepRun.events).flatten) [] ?_ ?_ (Or.inl rfl)⟩
    · unfold Run.trace
      rw [h]
      simp
    · intro e he
      rcases List.mem_cons.1 he with rfl | he
      · simp
      · exact hsteps e he
  · right
    refine ⟨h0, key (Event.policy_str_index
        (run_globals d opts).global_scheduler_selection_policy ::
        ((main d opts w).steps.map StepRun.events).flatten) [Event.shutdown_scheduler]
        ?_ ?_ (Or.inr rfl)⟩
    · unfold Run.trace
      rw [h]
      simp
    · intro e he
      rcases List.mem_cons.1 he with rfl | he
      · simp
      · exact hsteps e he

/-! ## C9: the descriptors of a time step -/

theorem getopt_loop_counts (g : Globals) (opts : List Opt)
    (h : (getopt_loop g opts).exit_code = none) :
    (getopt_loop g opts).globals.additional_fft_tasks_per_time_step
      = given_F g.additional_fft_tasks_per_time_step opts ∧
    (getopt_loop g opts).globals.additional_vit_tasks_per_time_step
      = given_M g.additional_vit_tasks_per_time_step opts := by
  induction opts generalizing g with
  | nil => simp [getopt_loop, given_F, given_M]
  | cons op rest ih =>
    cases op <;> simp only [getopt_loop, given_F, given_M] at h ⊢ <;> try exact ih _ h
    · simp at h
    · split at h
      · rename_i hcond
        simp only [hcond, if_true]
        exact ih _ h
      · simp at h

theorem countP_flatten_replicate (p : DescriptorUse → Bool) (l : List DescriptorUse) (n : Nat) :
    ((List.replicate n l).flatten).countP p = n * l.countP p := by
  induction n with
  | zero => simp
  | succ n ih => simp [List.replicate_succ, List.countP_append, ih, Nat.succ_mul, Nat.add_comm]

theorem expected_uses_counts (d : Decls) (F M : Nat) :
    (expected_uses d F M).countP DescriptorUse.is_acquire = 2 + F + M ∧
    (expected_uses d F M).countP DescriptorUse.is_start = 2 + F + M := by
  unfold expected_uses
  simp only [List.countP_append, countP_flatten_replicate]
  simp [List.countP_cons, DescriptorUse.is_acquire, DescriptorUse.is_start]
  omega

theorem additional_fft_tasks_uses (d : Decls) (inp : StepInput) (n i : Nat)
    (h : (additional_fft_tasks d inp n i).exit_code = none) :
    (additional_fft_tasks d inp n i).events.filterMap Event.descriptor_use =
      (List.replicate n
        [DescriptorUse.acquire .FFT_TASK d.BASE_TASK, DescriptorUse.start .FFT_TASK]).flatten := by
  induction n generalizing i with
  | zero => simp [additional_fft_tasks]
  | succ n ih =>
    unfold additional_fft_tasks at h ⊢
    cases hm : inp.fft_mb_ptr_2 i with
    | none => simp [hm] at h
    | some mb =>
      simp only [hm, StepRun.andThen] at h ⊢
      simp [List.filterMap_append, List.replicate_succ, ih (i + 1) h, Event.descriptor_use]

theorem additional_vit_tasks_uses (d : Decls) (g : Globals)
    (sel : Nat → Nat → vit_dict_entry_t) (inp : StepInput) (n i : Nat)
    (h : (additional_vit_tasks d g sel inp n i).exit_code = none) :
    (additional_vit_tasks d g sel inp n i).events.filterMap Event.descriptor_use =
      (List.replicate n
        [DescriptorUse.acquire .VITERBI_TASK d.BASE_TASK,
         DescriptorUse.start .VITERBI_TASK]).flatten := by
  induction n generalizing i with
  | zero => simp [additional_vit_tasks]
  | succ n ih =>
    unfold additional_vit_tasks at h ⊢
    cases hm : inp.vit_mb_ptr_2 i with
    | none => simp [hm] at h
    | some mb =>
      simp only [hm, StepRun.andThen] at h ⊢
      rcases msg_num_warning_is_printf d g inp with hw | hw <;> rw [hw] <;>
        simp [List.filterMap_append, List.replicate_succ, ih (i + 1) h, Event.descriptor_use]

/-- A time step that does not exit acquires and starts its descriptors in the
order the specification gives. -/
theorem time_step_uses (d : Decls) (g : Globals) (sel : Nat → Nat → vit_dict_entry_t)
    (inp : StepInput) (h : (time_step d g sel inp).exit_code = none) :
    (time_step d g sel inp).events.filterMap Event.descriptor_use =
      expected_uses d g.additional_fft_tasks_per_time_step
        g.additional_vit_tasks_per_time_step := by
  rcases time_step_cases d g sel inp with ⟨_, h2⟩ | ⟨mbF, c, _, _, h2⟩ | ⟨mbF, _, _, _, h2⟩ |
      ⟨mbF, mbV, c, _, _, _, _, h2⟩ | ⟨mbF, mbV, _, _, hc, hc2, h2⟩ <;> rw [h2] at h ⊢
  · cases h
  · cases h
  · cases h
  · cases h
  · simp only [List.filterMap_append, additional_fft_tasks_uses d inp _ 0 hc,
      additional_vit_tasks_uses d g sel inp _ 0 hc2]
    simp [expected_uses, fft_crit_events, vit_crit_events, closing_events,
      Event.descriptor_use]

/-- C9.  In every time step of a run of `main` in which no acquisition fails,
the acquisitions and starts are, in this order: the acquisition and start of
one critical FFT descriptor, then `F` times the acquisition and start of a
non-critical (`BASE_TASK`) FFT descriptor, then the acquisition (at level `3`)
and start of one critical Viterbi descriptor, then `M` times the acquisition
and start of a non-critical (`BASE_TASK`) Viterbi descriptor, where `F` and `M`
are the numbers given by the options `-F` and `-M` (0 when the option is not
given).  So the step acquires exactly `2 + F + M` descriptors and starts
exactly `2 + F + M`, and with `F = M = 0` only the two critical ones. -/
theorem C9_descriptors_of_a_step (d : Decls) (opts : List Opt) (w : World) (s : StepRun)
    (hs : s ∈ (main d opts w).steps)
    (hok : ∀ e ∈ s.events, e.is_failed_acquisition = false) :
    s.events.filterMap Event.descriptor_use =
      expected_uses d (given_F 0 opts) (given_M 0 opts) ∧
    (s.events.filterMap Event.descriptor_use).countP DescriptorUse.is_acquire
      = 2 + given_F 0 opts + given_M 0 opts ∧
    (s.events.filterMap Event.descriptor_use).countP DescriptorUse.is_start
      = 2 + given_F 0 opts + given_M 0 opts ∧
    (given_F 0 opts = 0 → given_M 0 opts = 0 →
      s.events.filterMap Event.descriptor_use =
        [DescriptorUse.acquire .FFT_TASK d.CRITICAL_TASK, DescriptorUse.start .FFT_TASK,
         DescriptorUse.acquire .VITERBI_TASK 3, DescriptorUse.start .VITERBI_TASK]) := by
  have hopt : (getopt_loop (initial_globals d) opts).exit_code = none := by
    rcases main_cases d opts w with ⟨c, m, _, h⟩ | ⟨m, t, _, h⟩ | ⟨c, h0, _, _⟩ | ⟨h0, _, _⟩
    · rw [h] at hs; simp at hs
    · rw [h] at hs; simp at hs
    · exact h0
    · exact h0
  obtain ⟨hF, hM⟩ := getopt_loop_counts (initial_globals d) opts hopt
  obtain ⟨inp, _, rfl⟩ := main_steps_mem d opts w s hs
  have hnone : (time_step d (run_globals d opts) w.select_specific_vit_input inp).exit_code
      = none := by
    rcases time_step_failure d (run_globals d opts) w.select_specific_vit_input inp with
      ⟨h1, _⟩ | ⟨c, _, body, job, crit, m, h4, _, _⟩
    · exact h1
    · have := hok (Event.get_task_metadata_block job crit none) (by rw [h4]; simp)
      simp [Event.is_failed_acquisition] at this
  have huses := time_step_uses d (run_globals d opts) w.select_specific_vit_input inp hnone
  have hF2 : (run_globals d opts).additional_fft_tasks_per_time_step = given_F 0 opts := hF
  have hM2 : (run_globals d opts).additional_vit_tasks_per_time_step = given_M 0 opts := hM
  rw [hF2, hM2] at huses
  refine ⟨huses, ?_, ?_, ?_⟩
  · rw [huses]; exact (expected_uses_counts d _ _).1
  · rw [huses]; exact (expected_uses_counts d _ _).2
  · intro h1 h2
    rw [huses, h1, h2]
    rfl

/-- C9 at a run with `-F 2 -M 1`: the step acquires and starts five
descriptors. -/
theorem C9_descriptors_witness :
    time_step decls0 (run_globals decls0 [Opt.F 2, Opt.M 1])
        (world0 [step_ok]).select_specific_vit_input step_ok
      ∈ (main decls0 [Opt.F 2, Opt.M 1] (world0 [step_ok])).steps ∧
    (∀ e ∈ (time_step decls0 (run_globals decls0 [Opt.F 2, Opt.M 1])
        (world0 [step_ok]).select_specific_vit_input step_ok).events,
        e.is_failed_acquisition = false) ∧
    (time_step decls0 (run_globals decls0 [Opt.F 2, Opt.M 1])
        (world0 [step_ok]).select_specific_vit_input step_ok).events.filterMap
          Event.descriptor_use =
      expected_uses decls0 (given_F 0 [Opt.F 2, Opt.M 1]) (given_M 0 [Opt.F 2, Opt.M 1]) :=
  ⟨by decide, by decide,
    (C9_descriptors_of_a_step decls0 [Opt.F 2, Opt.M 1] (world0 [step_ok])
      (time_step decls0 (run_globals decls0 [Opt.F 2, Opt.M 1])
        (world0 [step_ok]).select_specific_vit_input step_ok)
      (by decide) (by decide)).1⟩

/-! ## C10: the payload of the additional tasks -/

theorem getopt_loop_variability (g : Globals) (opts : List Opt)
    (h : (getopt_loop g opts).exit_code = none) :
    (getopt_loop g opts).globals.task_size_variability
      = given_S g.task_size_variability opts := by
  induction opts generalizing g with
  | nil => simp [getopt_loop, given_S]
  | cons op rest ih =>
    cases op <;> simp only [getopt_loop, given_S] at h ⊢ <;> try exact ih _ h
    · simp at h
    · split at h
      · rename_i hcond
        simp only [hcond, if_true]
        exact ih _ h
      · simp at h

theorem additional_fft_tasks_payload (d : Decls) (g : Globals)
    (sel : Nat → Nat → vit_dict_entry_t) (inp : StepInput) (n i : Nat) :
    ∀ e ∈ (additional_fft_tasks d inp n i).events, payload_rule d g sel inp e := by
  induction n generalizing i with
  | zero => intro e he; simp [additional_fft_tasks] at he
  | succ n ih =>
    intro e he
    unfold additional_fft_tasks at he
    cases hm : inp.fft_mb_ptr_2 i with
    | none =>
      simp only [hm, List.mem_cons, List.mem_singleton, List.not_mem_nil, or_false] at he
      rcases he with rfl | rfl <;> trivial
    | some mb =>
      simp only [hm, StepRun.andThen, List.mem_append, List.mem_cons, List.not_mem_nil,
        or_false] at he
      rcases he with (rfl | rfl | rfl) | he
      · trivial
      · trivial
      · exact rfl
      · exact ih (i + 1) e he

theorem additional_vit_tasks_payload (d : Decls) (g : Globals)
    (sel : Nat → Nat → vit_dict_entry_t) (inp : StepInput) (n i : Nat) :
    ∀ e ∈ (additional_vit_tasks d g sel inp n i).events, payload_rule d g sel inp e := by
  induction n generalizing i with
  | zero => intro e he; simp [additional_vit_tasks] at he
  | succ n ih =>
    intro e he
    unfold additional_vit_tasks at he
    cases hm : inp.vit_mb_ptr_2 i with
    | none =>
      simp only [hm, List.mem_cons, List.mem_singleton, List.not_mem_nil, or_false] at he
      rcases he with rfl | rfl <;> trivial
    | some mb =>
      simp only [hm, StepRun.andThen, List.mem_append, List.mem_cons, List.not_mem_nil,
        or_false] at he
      rcases he with (((rfl | rfl) | hw) | rfl) | he
      · trivial
      · trivial
      · rcases msg_num_warning_is_printf d g inp with h | h <;> rw [h] at hw
        · simp at hw
        · simp at hw; rw [hw]; trivial
      · exact Or.inr ⟨rfl, i, rfl⟩
      · exact ih (i + 1) e he

theorem time_step_payload (d : Decls) (g : Globals) (sel : Nat → Nat → vit_dict_entry_t)
    (inp : StepInput) : ∀ e ∈ (time_step d g sel inp).events, payload_rule d g sel inp e := by
  have hfl := additional_fft_tasks_payload d g sel inp g.additional_fft_tasks_per_time_step 0
  have hvl := additional_vit_tasks_payload d g sel inp g.additional_vit_tasks_per_time_step 0
  have hfc : ∀ mbF, ∀ e ∈ fft_crit_events d inp mbF, payload_rule d g sel inp e := by
    intro mbF e he
    simp only [fft_crit_events, List.mem_cons, List.mem_singleton, List.not_mem_nil,
      or_false] at he
    rcases he with rfl | rfl | rfl
    · trivial
    · trivial
    · exact rfl
  have hvc : ∀ mbV, ∀ e ∈ vit_crit_events inp mbV, payload_rule d g sel inp e := by
    intro mbV e he
    simp only [vit_crit_events, List.mem_cons, List.mem_singleton, List.not_mem_nil,
      or_false] at he
    rcases he with rfl | rfl | rfl
    · trivial
    · trivial
    · exact Or.inl ⟨rfl, rfl⟩
  have hpair : ∀ (a b : Event), (payload_rule d g sel inp a) → (payload_rule d g sel inp b) →
      ∀ e ∈ [a, b], payload_rule d g sel inp e := by
    intro a b ha hb e he
    simp only [List.mem_cons, List.mem_singleton, List.not_mem_nil, or_false] at he
    rcases he with rfl | rfl
    · exact ha
    · exact hb
  rcases time_step_cases d g sel inp with ⟨_, h⟩ | ⟨mbF, c, _, _, h⟩ | ⟨mbF, _, _, _, h⟩ |
      ⟨mbF, mbV, c, _, _, _, _, h⟩ | ⟨mbF, mbV, _, _, _, _, h⟩ <;> rw [h]
  · exact hpair _ _ trivial trivial
  · exact forall_mem_append (hfc mbF) hfl
  · exact forall_mem_append (forall_mem_append (hfc mbF) hfl) (hpair _ _ trivial trivial)
  · exact forall_mem_append (forall_mem_append (forall_mem_append (hfc mbF) hfl) (hvc mbV)) hvl
  · refine forall_mem_append (forall_mem_append (forall_mem_append (forall_mem_append
      (hfc mbF) hfl) (hvc mbV)) hvl) ?_
    intro e he
    simp only [closing_events, List.mem_cons, List.mem_singleton, List.not_mem_nil,
      or_false] at he
    rcases he with rfl | rfl | rfl <;> trivial

/-- C10, the claim as stated, fails: with `-M 1 -S 1` the critical Viterbi
task is started with the entry of the input feed (entry 5) and the additional
non-critical Viterbi task with the entry returned by
`select_random_vit_input` (entry 7), a different one. -/
theorem C10_counterexample_random_vit_input :
    Event.start_execution_of_vit_kernel { block_id := 1, atFinish := none } (entry0 5)
      ∈ (main decls0 [Opt.M 1, Opt.S 1] (world0 [step_ok])).trace ∧
    Event.start_execution_of_vit_kernel
        { block_id := 20, atFinish := some fn_ptr.base_release_metadata_block } (entry0 7)
      ∈ (main decls0 [Opt.M 1, Opt.S 1] (world0 [step_ok])).trace ∧
    entry0 7 ≠ entry0 5 := by
  decide

/-- C10, amended.  Every time step of a run of `main` is the step of one
record `inp` of the input feed, and in it: every radar start, critical or not,
carries the same buffer `radar_inputs`, for every setting of the options; the
critical Viterbi start (completion action `NULL`) carries the entry `vdentry_p`
of the feed; a non-critical Viterbi start (finalizer attached) carries, when
the task-size variability given by `-S` is 0 (the default), the entry
`select_specific_vit_input(msg_num / NUM_MESSAGES, msg_num % NUM_MESSAGES)`
computed from `vdentry_p`, and otherwise an entry returned by
`select_random_vit_input`.  So with variability 0 every Viterbi task of the
step receives the critical task's entry, provided the dictionary lookup
returns `vdentry_p` at its own coordinates. -/
theorem C10_payload_of_additional_tasks (d : Decls) (opts : List Opt) (w : World)
    (s : StepRun) (hs : s ∈ (main d opts w).steps) :
    ∃ inp ∈ w.steps, s = time_step d (run_globals d opts) w.select_specific_vit_input inp ∧
      (∀ mb inputs, Event.start_execution_of_rad_kernel mb inputs ∈ s.events →
        inputs = radar_inputs d inp) ∧
      (∀ mb entry, Event.start_execution_of_vit_kernel mb entry ∈ s.events →
        (mb.atFinish = none ∧ entry = inp.vdentry_p) ∨
        (mb.atFinish = some fn_ptr.base_release_metadata_block ∧ given_S 0 opts = 0 ∧
          entry = w.select_specific_vit_input (inp.vdentry_p.msg_num / d.NUM_MESSAGES)
            (inp.vdentry_p.msg_num % d.NUM_MESSAGES)) ∨
        (mb.atFinish = some fn_ptr.base_release_metadata_block ∧ given_S 0 opts ≠ 0 ∧
          ∃ i, entry = inp.select_random_vit_input i)) ∧
      (given_S 0 opts = 0 →
        w.select_specific_vit_input (inp.vdentry_p.msg_num / d.NUM_MESSAGES)
          (inp.vdentry_p.msg_num % d.NUM_MESSAGES) = inp.vdentry_p →
        ∀ mb entry, Event.start_execution_of_vit_kernel mb entry ∈ s.events →
          entry = inp.vdentry_p) := by
  have hopt : (getopt_loop (initial_globals d) opts).exit_code = none := by
    rcases main_cases d opts w with ⟨c, m, _, h⟩ | ⟨m, t, _, h⟩ | ⟨c, h0, _, _⟩ | ⟨h0, _, _⟩
    · rw [h] at hs; simp at hs
    · rw [h] at hs; simp at hs
    · exact h0
    · exact h0
  have hS : (run_globals d opts).task_size_variability = given_S 0 opts :=
    getopt_loop_variability (initial_globals d) opts hopt
  obtain ⟨inp, hinp, rfl⟩ := main_steps_mem d opts w s hs
  have hp := time_step_payload d (run_globals d opts) w.select_specific_vit_input inp
  have hvit : ∀ mb entry, Event.start_execution_of_vit_kernel mb entry ∈
      (time_step d (run_globals d opts) w.select_specific_vit_input inp).events →
      (mb.atFinish = none ∧ entry = inp.vdentry_p) ∨
      (mb.atFinish = some fn_ptr.base_release_metadata_block ∧ given_S 0 opts = 0 ∧
        entry = w.select_specific_vit_input (inp.vdentry_p.msg_num / d.NUM_MESSAGES)
          (inp.vdentry_p.msg_num % d.NUM_MESSAGES)) ∨
      (mb.atFinish = some fn_ptr.base_release_metadata_block ∧ given_S 0 opts ≠ 0 ∧
        ∃ i, entry = inp.select_random_vit_input i) := by
    intro mb entry he
    rcases hp _ he with h | ⟨h1, i, h2⟩
    · exact Or.inl h
    · right
      unfold vdentry2_p at h2
      rw [hS] at h2
      by_cases h0 : given_S 0 opts = 0
      · rw [if_pos h0] at h2
        exact Or.inl ⟨h1, h0, h2⟩
      · rw [if_neg h0] at h2
        exact Or.inr ⟨h1, h0, i, h2⟩
  refine ⟨inp, hinp, rfl, ?_, hvit, ?_⟩
  · intro mb inputs he
    exact hp _ he
  · intro h0 hsel mb entry he
    rcases hvit mb entry he with ⟨_, h⟩ | ⟨_, _, h⟩ | ⟨_, h, _⟩
    · exact h
    · rw [h, hsel]
    · exact absurd h0 h

/-- C10, amended, at a run with `-F 1 -M 1`. -/
theorem C10_payload_witness :
    time_step decls0 (run_globals decls0 [Opt.F 1, Opt.M 1])
        (world0 [step_ok]).select_specific_vit_input step_ok
      ∈ (main decls0 [Opt.F 1, Opt.M 1] (world0 [step_ok])).steps ∧
    ∃ inp ∈ (world0 [step_ok]).steps,
      time_step decls0 (run_globals decls0 [Opt.F 1, Opt.M 1])
        (world0 [step_ok]).select_specific_vit_input step_ok =
      time_step decls0 (run_globals decls0 [Opt.F 1, Opt.M 1])
        (world0 [step_ok]).select_specific_vit_input inp :=
  ⟨by decide,
    (C10_payload_of_additional_tasks decls0 [Opt.F 1, Opt.M 1] (world0 [step_ok])
      (time_step decls0 (run_globals decls0 [Opt.F 1, Opt.M 1])
        (world0 [step_ok]).select_specific_vit_input step_ok) (by decide)).imp
      (fun _ h => ⟨h.1, h.2.1⟩)⟩

/-! ## The levels of the two descriptors whose results are retrieved -/

/-- A time step that does not exit retrieves the results of the FFT
descriptor acquired at level `CRITICAL_TASK` and of the Viterbi descriptor
acquired at level `3`. -/
theorem time_step_results (d : Decls) (g : Globals) (sel : Nat → Nat → vit_dict_entry_t)
    (inp : StepInput) (h : (time_step d g sel inp).exit_code = none) :
    (time_step d g sel inp).results_from_levels d.CRITICAL_TASK 3 := by
  have hfl := additional_fft_tasks_is_issue d inp g.additional_fft_tasks_per_time_step 0
  have hvl := additional_vit_tasks_is_issue d g sel inp g.additional_vit_tasks_per_time_step 0
  rcases time_step_cases d g sel inp with ⟨_, h2⟩ | ⟨mbF, c, _, _, h2⟩ | ⟨mbF, _, _, _, h2⟩ |
      ⟨mbF, mbV, c, _, _, _, _, h2⟩ | ⟨mbF, mbV, _, _, _, _, h2⟩ <;> rw [h2] at h ⊢
  · cases h
  · cases h
  · cases h
  · cases h
  · refine ⟨mbF, mbV, _, rfl, ?_, ?_, ⟨radar_inputs d inp, ?_⟩, ⟨inp.vdentry_p, ?_⟩, ?_⟩
    · simp [fft_crit_events]
    · simp [vit_crit_events]
    · simp [fft_crit_events]
    · simp [vit_crit_events]
    · exact forall_mem_append (forall_mem_append (forall_mem_append
        (fft_crit_events_is_issue d inp mbF) hfl) (vit_crit_events_is_issue inp mbV)) hvl

/-! ## C12: the reported run time of a phase -/

theorem to_uint64_cast (x : Int) :
    ((to_uint64 x : Nat) : Int) = x % 18446744073709551616 := by
  unfold to_uint64
  exact Int.toNat_of_nonneg (Int.emod_nonneg _ (by decide))

theorem long_sub_emod (a b : Int) :
    long_sub a b % 18446744073709551616 = (a - b) % 18446744073709551616 := by
  unfold long_sub
  omega

/-- One accumulation adds the true difference, modulo `2^64`. -/
theorem accumulate_cast (acc : Nat) (a b : Int) :
    (((acc + to_uint64 (long_sub a b)) % 18446744073709551616 : Nat) : Int)
      = ((acc : Int) + (a - b)) % 18446744073709551616 := by
  have h1 := to_uint64_cast (long_sub a b)
  have h2 := long_sub_emod a b
  push_cast
  omega

/-- The accumulators after the loop are, modulo `2^64`, the initial values plus
the sums of the true differences. -/
theorem phase_timer_emod (t : PhaseTimer) (pairs : List (timeval × timeval)) :
    ((phase_timer t pairs).sec : Int) % 18446744073709551616
      = ((t.sec : Int) + (pairs.map (fun p => p.2.tv_sec - p.1.tv_sec)).sum)
          % 18446744073709551616 ∧
    ((phase_timer t pairs).usec : Int) % 18446744073709551616
      = ((t.usec : Int) + (pairs.map (fun p => p.2.tv_usec - p.1.tv_usec)).sum)
          % 18446744073709551616 := by
  induction pairs generalizing t with
  | nil => simp [phase_timer]
  | cons p rest ih =>
    obtain ⟨ih1, ih2⟩ := ih (t.accumulate p.1 p.2)
    have h1 : ((t.accumulate p.1 p.2).sec : Int)
        = ((t.sec : Int) + (p.2.tv_sec - p.1.tv_sec)) % 18446744073709551616 :=
      accumulate_cast t.sec p.2.tv_sec p.1.tv_sec
    have h2 : ((t.accumulate p.1 p.2).usec : Int)
        = ((t.usec : Int) + (p.2.tv_usec - p.1.tv_usec)) % 18446744073709551616 :=
      accumulate_cast t.usec p.2.tv_usec p.1.tv_usec
    simp only [phase_timer, List.map_cons, List.sum_cons]
    constructor
    · rw [ih1, h1]; omega
    · rw [ih2, h2]; omega

theorem total_elapsed_usec_eq (pairs : List (timeval × timeval)) :
    total_elapsed_usec pairs
      = (pairs.map (fun p => p.2.tv_sec - p.1.tv_sec)).sum * 1000000
        + (pairs.map (fun p => p.2.tv_usec - p.1.tv_usec)).sum := by
  unfold total_elapsed_usec
  induction pairs with
  | nil => simp
  | cons p rest ih =>
    simp only [List.map_cons, List.sum_cons, ih, elapsed_usec]
    ring

theorem total_elapsed_usec_nonneg (pairs : List (timeval × timeval))
    (hwf : ∀ p ∈ pairs, well_formed_pair p) : 0 ≤ total_elapsed_usec pairs := by
  unfold total_elapsed_usec
  induction pairs with
  | nil => simp
  | cons p rest ih =>
    have hp := hwf p (List.mem_cons_self _ _)
    have hrest := ih (fun q hq => hwf q (List.mem_cons_of_mem _ hq))
    simp only [List.map_cons, List.sum_cons]
    have : 0 ≤ elapsed_usec p := by
      unfold well_formed_pair at hp
      unfold elapsed_usec
      omega
    omega

/-- The reported run time is the true total modulo `2^64`, for any timestamps. -/
theorem reported_run_time_emod (pairs : List (timeval × timeval)) :
    (reported_run_time pairs : Int) = total_elapsed_usec pairs % 18446744073709551616 := by
  obtain ⟨h1, h2⟩ := phase_timer_emod PhaseTimer.initial pairs
  have e1 : ((PhaseTimer.initial.sec : Nat) : Int) = 0 := rfl
  have e2 : ((PhaseTimer.initial.usec : Nat) : Int) = 0 := rfl
  rw [e1, zero_add] at h1
  rw [e2, zero_add] at h2
  rw [total_elapsed_usec_eq]
  unfold reported_run_time run_time
  push_cast
  omega

/-- C12.  For every sequence of `(start, stop)` timestamp pairs in which each
`tv_usec` lies in `[0, 999999]` and each `stop` is not earlier than its
`start`, the run time `main` reports for a phase, computed from the two
`uint64_t` sums of the `tv_sec` and of the `tv_usec` differences as
`sec * 1000000 + usec` with wraparound, equals the true total elapsed time in
microseconds modulo `2^64`, also when single `tv_usec` differences are
negative; the true total is not negative, and when it is below `2^64` the
reported value equals it exactly. -/
theorem C12_reported_run_time (pairs : List (timeval × timeval))
    (hwf : ∀ p ∈ pairs, well_formed_pair p) :
    (reported_run_time pairs : Int) = total_elapsed_usec pairs % 18446744073709551616 ∧
    0 ≤ total_elapsed_usec pairs ∧
    (total_elapsed_usec pairs < 18446744073709551616 →
      (reported_run_time pairs : Int) = total_elapsed_usec pairs) := by
  have h0 := total_elapsed_usec_nonneg pairs hwf
  refine ⟨reported_run_time_emod pairs, h0, ?_⟩
  intro hlt
  rw [reported_run_time_emod pairs]
  exact Int.emod_eq_of_lt h0 hlt

/-- C12 at three time steps, two of them with a negative `tv_usec` difference:
the reported value is 2200501 microseconds. -/
theorem C12_reported_run_time_witness :
    (∀ p ∈ pairs0, well_formed_pair p) ∧
    (reported_run_time pairs0 : Int) = total_elapsed_usec pairs0 ∧
    reported_run_time pairs0 = 2200501 :=
  ⟨by simp [pairs0, well_formed_pair],
    (C12_reported_run_time pairs0 (by simp [pairs0, well_formed_pair])).2.2 (by decide),
    by decide⟩

end SchedulerLibrary
